import Mathlib

/-!
Shallow embedding of photutils (`src/photutils/psf/models.py` and
`src/photutils/segmentation.py`) for checking the natural-language
specification against the code.

Conventions used throughout:
* Machine floats are idealized as exact rationals wherever the values that
  matter are finite; where the code explicitly tests for NaN / non-finite
  values (`Discrete2DModel.__init__`, `DiscretePRF.__init__`) we use the
  `PFloat` type below, which models IEEE special values (NaN, signed
  infinity) on top of exact rational arithmetic.
* 2D numpy arrays are modeled as row-major `List (List α)` values
  (`Grid α`); 4D PRF cubes as `List (List (Grid α))`.
* Python exceptions are modeled with `Except String`.
* In-place numpy mutation of caller-visible arrays is modeled with an
  explicit heap (`Heap := List (Grid ℚ)`) in the segmentation embedding,
  so that frame properties ("caller's array is unchanged") are real
  statements about the store rather than artifacts of a pure translation.
-/

/-- Model of an IEEE-754 double as used by numpy: NaN, signed infinity, or
an exact finite value (rounding is idealized away; all claims here are
"to numerical tolerance"). -/
inductive PFloat where
  | nan : PFloat
  | inf : Bool → PFloat   -- `inf true` is +inf, `inf false` is -inf
  | fin : ℚ → PFloat
  deriving DecidableEq

namespace PFloat

/-- `np.isnan`. -/
def isnan : PFloat → Bool
  | nan => true
  | _ => false

/-- `np.isfinite`. -/
def isfinite : PFloat → Bool
  | fin _ => true
  | _ => false

/-- IEEE addition (signs of zeros ignored, which does not matter for any
value compared here). -/
def add : PFloat → PFloat → PFloat
  | nan, _ => nan
  | _, nan => nan
  | inf s, inf t => if s = t then inf s else nan
  | inf s, fin _ => inf s
  | fin _, inf t => inf t
  | fin a, fin b => fin (a + b)

/-- IEEE multiplication. -/
def mul : PFloat → PFloat → PFloat
  | nan, _ => nan
  | _, nan => nan
  | inf s, inf t => inf (s = t)
  | inf s, fin b => if b = 0 then nan else inf (s = (0 < b))
  | fin a, inf t => if a = 0 then nan else inf (t = (0 < a))
  | fin a, fin b => fin (a * b)

/-- IEEE division (with the sign of zero idealized to `+0`, so `a / 0`
for `a > 0` is `+inf`; none of the claims depend on the sign of an
infinity produced this way). -/
def div : PFloat → PFloat → PFloat
  | nan, _ => nan
  | _, nan => nan
  | inf _, inf _ => nan
  | inf s, fin b => if b < 0 then inf (!s) else inf s
  | fin _, inf _ => fin 0
  | fin a, fin b =>
      if b = 0 then (if a = 0 then nan else inf (0 < a)) else fin (a / b)

/-- `np.sum` over a 1D list of floats (left fold starting from `0.0`,
matching numpy's accumulation). -/
def sum (l : List PFloat) : PFloat := l.foldl add (fin 0)

end PFloat

/-- A row-major 2D array. -/
abbrev Grid (α : Type) := List (List α)

/-- `arr.shape` of a 2D array: `(rows, cols)` (embedded arrays are
rectangular in all uses; the column count is read off the first row). -/
def shape2 {α : Type} (g : Grid α) : ℕ × ℕ := (g.length, (g.headD []).length)

/-- `np.sum` over a 2D float array (row-major order). -/
def psum2D (g : Grid PFloat) : PFloat := PFloat.sum g.flatten

/-- Sum of a 2D rational array. -/
def qsum2D (g : Grid ℚ) : ℚ := (g.flatten).sum

/-- Elementwise map over a 2D array. -/
def gridMap {α β : Type} (f : α → β) (g : Grid α) : Grid β := g.map (·.map f)

section SumLemmas

/-- The rational value of a finite float (0 for non-finite values; only
applied to finite values in the lemmas below). -/
def finVal : PFloat → ℚ
  | .fin q => q
  | _ => 0

/-- If an IEEE addition produces a finite value, both operands were
finite. -/
theorem add_finite {a b : PFloat} (h : (a.add b).isfinite = true) :
    a.isfinite = true ∧ b.isfinite = true := by
  cases a <;> cases b <;>
    simp only [PFloat.add] at h <;>
    first
      | exact ⟨rfl, rfl⟩
      | (split at h <;> simp [PFloat.isfinite] at h)
      | simp [PFloat.isfinite] at h

/-- If a left-fold of IEEE additions produces a finite value, the
accumulator and every summand were finite. -/
theorem foldl_add_finite {l : List PFloat} {b : PFloat}
    (h : (l.foldl PFloat.add b).isfinite = true) :
    b.isfinite = true ∧ ∀ x ∈ l, x.isfinite = true := by
  induction l generalizing b with
  | nil => simpa using h
  | cons x l ih =>
      rw [List.foldl_cons] at h
      obtain ⟨hbx, hrest⟩ := ih h
      obtain ⟨hb, hx⟩ := add_finite hbx
      exact ⟨hb, by
        intro y hy
        rcases List.mem_cons.mp hy with rfl | hy
        · exact hx
        · exact hrest y hy⟩

/-- A left-fold of IEEE additions over finite values computes the exact
rational sum. -/
theorem foldl_add_fin (l : List PFloat) (b : ℚ)
    (hfin : ∀ x ∈ l, x.isfinite = true) :
    l.foldl PFloat.add (.fin b) =
      .fin (b + (l.map finVal).sum) := by
  induction l generalizing b with
  | nil => simp
  | cons x l ih =>
      have hx : x.isfinite = true := hfin x (List.mem_cons_self x l)
      cases x with
      | nan => simp [PFloat.isfinite] at hx
      | inf s => simp [PFloat.isfinite] at hx
      | fin q =>
          rw [List.foldl_cons]
          have : PFloat.add (.fin b) (.fin q) = .fin (b + q) := rfl
          rw [this, ih (b + q) (fun y hy => hfin y (List.mem_cons_of_mem _ hy))]
          simp [add_assoc, finVal]

/-- `PFloat.sum` of finite values is the finite exact sum. -/
theorem psum_fin (l : List PFloat) (hfin : ∀ x ∈ l, x.isfinite = true) :
    PFloat.sum l =
      .fin ((l.map finVal).sum) := by
  unfold PFloat.sum
  rw [foldl_add_fin l 0 hfin]
  simp

/-- If `PFloat.sum` is finite then every summand is finite. -/
theorem psum_finite {l : List PFloat} (h : (PFloat.sum l).isfinite = true) :
    ∀ x ∈ l, x.isfinite = true :=
  (foldl_add_finite h).2

end SumLemmas

/-! ## `Discrete2DModel.__init__` normalization and the `data` property
(`src/photutils/psf/models.py` lines 77-112). -/

/-- State stored by `Discrete2DModel.__init__` that is relevant to the
flux-normalization claim: the current `flux` parameter value and the
normalized grid `self._ndata`. -/
structure D2MNorm where
  flux : PFloat
  ndata : Grid PFloat
  deriving DecidableEq

/-- `Discrete2DModel.__init__` lines 85-91:
`tflux = np.sum(data)`; if `tflux == 0.0` or not finite, `tflux = 1.0`;
if `flux is None`, `flux = tflux`; `self._ndata = data / tflux`. -/
def d2mInit (data : Grid PFloat) (flux? : Option PFloat) : D2MNorm :=
  let tflux := psum2D data
  let tflux := if tflux = .fin 0 ∨ ¬ tflux.isfinite then .fin 1 else tflux
  let flux := flux?.getD tflux
  { flux := flux, ndata := gridMap (fun v => v.div tflux) data }

/-- The `data` property (lines 109-112): `self.flux.value * self._ndata`,
evaluated at the current value `flux` of the flux parameter. -/
def d2mData (flux : PFloat) (st : D2MNorm) : Grid PFloat :=
  gridMap (fun v => PFloat.mul flux v) st.ndata

theorem eq_fin_of_isfinite {x : PFloat} (h : x.isfinite = true) :
    x = .fin (finVal x) := by
  cases x <;> simp_all [PFloat.isfinite, finVal]

theorem psum_map_of_fin (l : List ℚ) :
    PFloat.sum (l.map PFloat.fin) = .fin l.sum := by
  rw [psum_fin]
  · congr 1
    rw [List.map_map]
    simp [Function.comp_def, finVal]
  · intro x hx
    obtain ⟨q, _, rfl⟩ := List.mem_map.mp hx
    rfl

theorem sum_map_mul_div (l : List ℚ) (f s : ℚ) :
    (l.map (fun q => f * (q / s))).sum = f * (l.sum / s) := by
  induction l with
  | nil => simp
  | cons x l ih => simp [ih, add_div, mul_add]

/-- `(gridMap f g).flatten = g.flatten.map f`. -/
theorem flatten_gridMap {α β : Type} (f : α → β) (g : Grid α) :
    (gridMap f g).flatten = g.flatten.map f := by
  unfold gridMap
  exact (List.map_flatten f g).symm

/-- C1 (amended): when the input grid has a finite, nonzero sum `s`, the
stored grid `self._ndata` sums exactly to 1 and the `data` property sums
exactly to the current (finite) value of the `flux` parameter — for every
such grid and every rational flux value.  (When the grid sum is zero or
non-finite the divisor is forced to 1, so the stored grid keeps its
original sum and `sum(data) = flux * sum(grid)`, refuting the unqualified
claim; see the counterexample.) -/
theorem c1_data_sums_to_flux (data : Grid PFloat) (flux? : Option PFloat)
    (s f : ℚ) (hsum : psum2D data = .fin s) (hs : s ≠ 0) :
    psum2D (d2mInit data flux?).ndata = .fin 1 ∧
    psum2D (d2mData (.fin f) (d2mInit data flux?)) = .fin f := by
  have hfins : ∀ x ∈ data.flatten, x.isfinite = true := by
    apply psum_finite
    show (psum2D data).isfinite = true
    rw [hsum]; rfl
  have htflux : (if psum2D data = .fin 0 ∨ ¬ (psum2D data).isfinite
      then PFloat.fin 1 else psum2D data) = .fin s := by
    rw [hsum]
    rw [if_neg]
    simp [PFloat.isfinite, hs]
  have hdiv : ∀ x ∈ data.flatten,
      PFloat.div x (.fin s) = .fin (finVal x / s) := by
    intro x hx
    rw [eq_fin_of_isfinite (hfins x hx)]
    simp [PFloat.div, hs, finVal]
  have hsum' : (data.flatten.map finVal).sum = s := by
    have := psum_fin data.flatten hfins
    rw [show PFloat.sum data.flatten = psum2D data from rfl, hsum] at this
    exact (PFloat.fin.injEq _ _ ▸ this.symm : _)
  have hndata : (d2mInit data flux?).ndata.flatten =
      (data.flatten.map finVal).map (fun q => PFloat.fin (q / s)) := by
    show (gridMap _ data).flatten = _
    rw [flatten_gridMap, htflux, List.map_map]
    exact List.map_congr_left fun x hx => by
      rw [Function.comp_apply, hdiv x hx]
  constructor
  · show PFloat.sum (d2mInit data flux?).ndata.flatten = _
    rw [hndata,
      show (fun q => PFloat.fin (q / s)) =
        PFloat.fin ∘ (fun q : ℚ => (1 : ℚ) * (q / s)) from by funext q; simp,
      ← List.map_map, psum_map_of_fin, sum_map_mul_div, hsum']
    congr 1
    field_simp
  · show PFloat.sum (gridMap _ (d2mInit data flux?).ndata).flatten = _
    rw [flatten_gridMap, hndata, List.map_map,
      show ((fun v => PFloat.mul (.fin f) v) ∘ fun q : ℚ => PFloat.fin (q / s)) =
        PFloat.fin ∘ (fun q : ℚ => f * (q / s)) from by
          funext q; simp [Function.comp, PFloat.mul],
      ← List.map_map, psum_map_of_fin, sum_map_mul_div, hsum']
    congr 1
    field_simp

/-- Witness for C1: a concrete grid with sum 4 and flux 7. -/
theorem c1_witness :
    psum2D [[PFloat.fin 1, PFloat.fin 3]] = .fin 4 ∧ (4 : ℚ) ≠ 0 ∧
    (psum2D (d2mInit [[PFloat.fin 1, PFloat.fin 3]] none).ndata = .fin 1 ∧
     psum2D (d2mData (.fin 7) (d2mInit [[PFloat.fin 1, PFloat.fin 3]] none)) =
       .fin 7) :=
  ⟨by norm_num [psum2D, PFloat.sum, PFloat.add], by norm_num,
   c1_data_sums_to_flux [[PFloat.fin 1, PFloat.fin 3]] none 4 7
     (by norm_num [psum2D, PFloat.sum, PFloat.add]) (by norm_num)⟩

/-- Counterexample to C1 as stated: for the grid `[[1, -1]]` (sum zero)
the divisor is forced to 1, the stored grid is *not* rescaled to sum 1,
and with flux parameter 5 the `data` property sums to 0, not 5. -/
theorem c1_counterexample :
    psum2D (d2mData (.fin 5) (d2mInit [[PFloat.fin 1, PFloat.fin (-1)]] none))
      = .fin 0 ∧ PFloat.fin 0 ≠ PFloat.fin 5 ∧
    psum2D (d2mInit [[PFloat.fin 1, PFloat.fin (-1)]] none).ndata ≠ .fin 1 := by
  refine ⟨?_, ?_, ?_⟩ <;>
    norm_num [d2mInit, d2mData, gridMap, psum2D, PFloat.sum, PFloat.add,
      PFloat.mul, PFloat.div, PFloat.isfinite]

/-! ## `DiscretePRF.__init__` (`src/photutils/psf/models.py` lines 331-359)

The PRF lookup cube is a 4D array of shape
`(subsampling, subsampling, prf_size, prf_size)`; we embed 4D inputs
directly (the 2D convenience wrapping at lines 333-335 builds a fresh
array via `np.array` and is outside the claims about 4D cubes). -/

/-- A 4D PRF cube: outer index = y subpixel, then x subpixel, then the
2D PRF image. -/
abbrev Cube := List (List (Grid PFloat))

/-- Model state stored by `DiscretePRF.__init__`. -/
structure DiscretePRFState where
  prf_array : Cube
  subsampling : ℕ
  flux : ℚ
  x_0 : ℚ
  y_0 : ℚ
  deriving DecidableEq

/-- `np.isnan(prf_array).any()`. -/
def cubeHasNaN (c : Cube) : Bool :=
  c.any (fun row => row.any (fun sl => sl.any (fun r => r.any PFloat.isnan)))

/-- `prf_array[i, j] /= prf_array[i, j].sum()`: divide a subpixel slice
elementwise by its own (scalar) sum. -/
def sliceDivSum (sl : Grid PFloat) : Grid PFloat :=
  gridMap (fun v => v.div (psum2D sl)) sl

/-- The normalization double loop (lines 344-347), modeled as in-place
updates on the (aliased) cube: for each `i`, `j` in order, replace slice
`(i, j)` by itself divided by its sum. -/
def normalizeLoop (c : Cube) : Cube :=
  (List.range c.length).foldl
    (fun p i =>
      (List.range ((p.getD i []).length)).foldl
        (fun p j =>
          p.set i ((p.getD i []).set j (sliceDivSum ((p.getD i []).getD j []))))
        p)
    c

/-- `DiscretePRF.__init__` for a 4D cube (lines 336-358).  Returns both
the final contents of the *caller's* array (which the normalization loop
mutates in place) and the stored model state; `self._prf_array` is the
very same (aliased) array. -/
def discretePRFInit (prf_array : Cube) (normalize : Bool) (subsampling : ℕ) :
    Except String (Cube × DiscretePRFState) :=
  if prf_array.length ≠ subsampling ∨
      prf_array.any (fun row => row.length ≠ subsampling) then
    .error "Incompatible subsampling and array size"
  else if cubeHasNaN prf_array then
    .error "Array contains NaN values. Cannot create PRF."
  else
    let prf := if normalize then normalizeLoop prf_array else prf_array
    .ok (prf, { prf_array := prf, subsampling := subsampling,
                flux := 1, x_0 := 0, y_0 := 0 })

/-- The normalized cube described directly: every subpixel slice divided
by its own sum. -/
def normSpec (c : Cube) : Cube := c.map (fun row => row.map sliceDivSum)

section FoldSetLemmas

variable {α β : Type}

theorem set_getD_self (p : List α) (i : ℕ) (d : α) (hi : i < p.length) :
    p.set i (p.getD i d) = p := by
  induction p generalizing i with
  | nil => simp at hi
  | cons x p ih =>
      cases i with
      | zero => rfl
      | succ i => simpa using ih i (by simpa using hi)

theorem getD_set_self (p : List α) (i : ℕ) (a d : α) (hi : i < p.length) :
    (p.set i a).getD i d = a := by
  induction p generalizing i with
  | nil => simp at hi
  | cons x p ih =>
      cases i with
      | zero => rfl
      | succ i => simpa using ih i (by simpa using hi)

/-- A fold whose every step reads and writes only position `i` commutes
with projecting out position `i`. -/
theorem foldl_set_at (js : List ℕ) (i : ℕ) (d : β) (G : β → ℕ → β) :
    ∀ (p : List β), i < p.length →
      js.foldl (fun p j => p.set i (G (p.getD i d) j)) p =
        p.set i (js.foldl G (p.getD i d)) := by
  induction js with
  | nil => intro p hi; exact (set_getD_self p i d hi).symm
  | cons j js ih =>
      intro p hi
      rw [List.foldl_cons, List.foldl_cons,
        ih (p.set i (G (p.getD i d) j)) (by simpa using hi)]
      rw [List.set_set]
      congr 1
      congr 1
      exact getD_set_self p i _ d hi

theorem getD_append_length (pre : List α) (x : α) (post : List α) (d : α) :
    (pre ++ x :: post).getD pre.length d = x := by
  induction pre with
  | nil => rfl
  | cons y pre ih => simpa using ih

theorem set_append_length (pre : List α) (x v : α) (post : List α) :
    (pre ++ x :: post).set pre.length v = pre ++ v :: post := by
  induction pre with
  | nil => rfl
  | cons y pre ih => simp [ih]

/-- A fold over `range' |pre| |post|` whose step rewrites the element at
the scanned position with `g` is elementwise `map g` on the unscanned
suffix. -/
theorem foldl_range'_map (g : α → α) (step : List α → ℕ → List α)
    (hstep : ∀ pre x post, step (pre ++ x :: post) pre.length = pre ++ g x :: post) :
    ∀ (post pre : List α),
      (List.range' pre.length post.length).foldl step (pre ++ post) =
        pre ++ post.map g := by
  intro post
  induction post with
  | nil => intro pre; simp
  | cons x post ih =>
      intro pre
      rw [List.length_cons, List.range'_succ, List.foldl_cons, hstep]
      have := ih (pre ++ [g x])
      simp only [List.length_append, List.length_cons, List.length_nil,
        List.append_assoc, List.cons_append, List.nil_append] at this ⊢
      simpa using this

/-- In-place elementwise update by a fold of set-operations equals `map`. -/
theorem foldl_range_map (g : α → α) (step : List α → ℕ → List α)
    (hstep : ∀ pre x post, step (pre ++ x :: post) pre.length = pre ++ g x :: post)
    (l : List α) :
    (List.range l.length).foldl step l = l.map g := by
  have := foldl_range'_map g step hstep l []
  simpa [List.range_eq_range'] using this

end FoldSetLemmas

/-- The row-level normalization fold equals mapping `sliceDivSum` over
the row. -/
theorem rowLoop_eq_map (row : List (Grid PFloat)) :
    (List.range row.length).foldl
      (fun r j => r.set j (sliceDivSum (r.getD j []))) row =
      row.map sliceDivSum := by
  apply foldl_range_map
  intro pre x post
  rw [getD_append_length, set_append_length]

/-- The in-place normalization double loop computes exactly the
slice-by-slice normalized cube. -/
theorem normalizeLoop_eq_normSpec (c : Cube) : normalizeLoop c = normSpec c := by
  unfold normalizeLoop normSpec
  apply foldl_range_map
  intro pre x post
  have hlen : pre.length < (pre ++ x :: post).length := by
    simp
  rw [getD_append_length]
  rw [foldl_set_at (List.range x.length) pre.length []
    (fun r j => r.set j (sliceDivSum (r.getD j []))) (pre ++ x :: post) hlen]
  rw [getD_append_length, set_append_length, rowLoop_eq_map x]

/-- Whether an `Except` result is a success. -/
def exOk {α : Type} : Except String α → Bool
  | .ok _ => true
  | .error _ => false

/-- Helper: a successful normalizing construction stores exactly the
slice-by-slice normalized cube, and the stored array is the caller's
(mutated) array. -/
theorem discretePRFInit_ok_normalized {c : Cube} {sub : ℕ}
    {after : Cube} {st : DiscretePRFState}
    (h : discretePRFInit c true sub = .ok (after, st)) :
    after = normSpec c ∧ st.prf_array = after := by
  unfold discretePRFInit at h
  split at h
  · exact absurd h (by simp)
  · split at h
    · exact absurd h (by simp)
    · simp only [if_true, Except.ok.injEq, Prod.mk.injEq] at h
      obtain ⟨h1, h2⟩ := h
      subst h1
      constructor
      · exact normalizeLoop_eq_normSpec c
      · rw [← h2]

/-- Helper: division of a 2D slice by its own sum yields a slice summing
to exactly 1, whenever that sum is finite and nonzero. -/
theorem psum_sliceDivSum {sl : Grid PFloat} {s : ℚ}
    (hsum : psum2D sl = .fin s) (hs : s ≠ 0) :
    psum2D (sliceDivSum sl) = .fin 1 := by
  have hfins : ∀ x ∈ sl.flatten, x.isfinite = true := by
    apply psum_finite
    show (psum2D sl).isfinite = true
    rw [hsum]; rfl
  have hsum' : (sl.flatten.map finVal).sum = s := by
    have := psum_fin sl.flatten hfins
    rw [show PFloat.sum sl.flatten = psum2D sl from rfl, hsum] at this
    exact (PFloat.fin.injEq _ _ ▸ this.symm : _)
  show PFloat.sum (gridMap _ sl).flatten = _
  rw [flatten_gridMap, hsum]
  have : ∀ x ∈ sl.flatten, PFloat.div x (.fin s) = .fin (finVal x / s) := by
    intro x hx
    rw [eq_fin_of_isfinite (hfins x hx)]
    simp [PFloat.div, hs, finVal]
  rw [List.map_congr_left this,
    show (fun x => PFloat.fin (finVal x / s)) =
      (PFloat.fin ∘ fun q : ℚ => (1 : ℚ) * (q / s)) ∘ finVal from by
        funext x; simp,
    show (List.map ((PFloat.fin ∘ fun q : ℚ => (1 : ℚ) * (q / s)) ∘ finVal)
      sl.flatten) = List.map (PFloat.fin ∘ fun q : ℚ => (1 : ℚ) * (q / s))
        (List.map finVal sl.flatten) from (List.map_map _ _ _).symm,
    show (List.map (PFloat.fin ∘ fun q : ℚ => (1 : ℚ) * (q / s))
      (List.map finVal sl.flatten)) = List.map PFloat.fin
        (List.map (fun q : ℚ => (1 : ℚ) * (q / s))
          (List.map finVal sl.flatten)) from (List.map_map _ _ _).symm,
    psum_map_of_fin, sum_map_mul_div, hsum']
  congr 1
  field_simp

/-- `getD` commutes with `map` when the default is preserved by `f`. -/
theorem getD_map_compat {α β : Type} (f : α → β) (l : List α) (i : ℕ)
    (d : α) (e : β) (hf : f d = e) : (l.map f).getD i e = f (l.getD i d) := by
  induction l generalizing i with
  | nil => simpa using hf.symm
  | cons x l ih =>
      cases i with
      | zero => rfl
      | succ i => simpa using ih i

/-- C8 (amended): construction of a `DiscretePRF` fails whenever the 4D
cube contains a NaN (for either value of `normalize`); and after a
successful normalizing construction, every subpixel slice whose original
sum is a nonzero finite value sums to exactly 1.  (A slice whose sum is
zero is divided by 0 and afterwards sums to NaN rather than 1 — the
unqualified claim fails; see the counterexample.) -/
theorem c8_nan_rejected_and_slices_normalized (c : Cube) (sub : ℕ) :
    (∀ normalize : Bool, cubeHasNaN c = true →
      exOk (discretePRFInit c normalize sub) = false) ∧
    (∀ after st, discretePRFInit c true sub = .ok (after, st) →
      ∀ i j s, psum2D ((c.getD i []).getD j []) = .fin s → s ≠ 0 →
        psum2D ((st.prf_array.getD i []).getD j []) = .fin 1) := by
  constructor
  · intro normalize hnan
    unfold discretePRFInit
    split <;> simp [exOk, hnan]
  · intro after st h i j s hsum hs
    obtain ⟨h1, h2⟩ := discretePRFInit_ok_normalized h
    rw [h2, h1]
    simp only [normSpec]
    rw [getD_map_compat (fun row => row.map sliceDivSum) c i [] [] rfl,
      getD_map_compat sliceDivSum (c.getD i []) j [] [] rfl]
    exact psum_sliceDivSum hsum hs


/-- C10: constructing a `DiscretePRF` from a 4D cube with
`normalize=True` writes through the caller's array: afterwards the
caller's cube holds each `(i, j)` subpixel slice divided by its own sum,
and the stored `self._prf_array` is that very array (no private copy). -/
theorem c10_normalize_mutates_caller (c : Cube) (sub : ℕ)
    (after : Cube) (st : DiscretePRFState)
    (h : discretePRFInit c true sub = .ok (after, st)) :
    after = normSpec c ∧ st.prf_array = after :=
  discretePRFInit_ok_normalized h

/-- Witness for C10 at the concrete cube `[[[[2.0]]]]`: construction
succeeds, the caller's array afterwards holds `[[[[1.0]]]]` (the slice
divided by its sum 2), which differs from the original contents. -/
theorem c10_witness :
    normSpec [[[[PFloat.fin 2]]]] = [[[[PFloat.fin 1]]]] ∧
    ([[[[PFloat.fin 1]]]] : Cube) ≠ [[[[PFloat.fin 2]]]] ∧
    discretePRFInit [[[[PFloat.fin 2]]]] true 1 =
      .ok ([[[[PFloat.fin 1]]]],
        { prf_array := [[[[PFloat.fin 1]]]], subsampling := 1,
          flux := 1, x_0 := 0, y_0 := 0 }) := by
  have h0 : discretePRFInit [[[[PFloat.fin 2]]]] true 1 =
      .ok ([[[[PFloat.fin 1]]]],
        { prf_array := [[[[PFloat.fin 1]]]], subsampling := 1,
          flux := 1, x_0 := 0, y_0 := 0 }) := by
    norm_num [discretePRFInit, cubeHasNaN, normalizeLoop, sliceDivSum,
      gridMap, psum2D, PFloat.sum, PFloat.add, PFloat.div, PFloat.isnan,
      List.range_succ]
  have h1 := c10_normalize_mutates_caller [[[[PFloat.fin 2]]]] 1
    [[[[PFloat.fin 1]]]] _ h0
  refine ⟨h1.1.symm, ?_, h0⟩
  simp

/-- Witness for C8: a cube containing NaN is rejected, and for the cube
`[[[[2, 2]]]]` (slice sum 4) the stored slice after normalization sums
to exactly 1. -/
theorem c8_witness :
    exOk (discretePRFInit [[[[PFloat.nan]]]] true 1) = false ∧
    psum2D [[PFloat.fin (1/2), PFloat.fin (1/2)]] = .fin 1 := by
  constructor
  · exact (c8_nan_rejected_and_slices_normalized [[[[PFloat.nan]]]] 1).1 true
      (by norm_num [cubeHasNaN, PFloat.isnan])
  · have h0 : discretePRFInit [[[[PFloat.fin 2, PFloat.fin 2]]]] true 1 =
        .ok ([[[[PFloat.fin (1/2), PFloat.fin (1/2)]]]],
          { prf_array := [[[[PFloat.fin (1/2), PFloat.fin (1/2)]]]],
            subsampling := 1, flux := 1, x_0 := 0, y_0 := 0 }) := by
      norm_num [discretePRFInit, cubeHasNaN, normalizeLoop, sliceDivSum,
        gridMap, psum2D, PFloat.sum, PFloat.add, PFloat.div, PFloat.isnan,
        List.range_succ]
    exact (c8_nan_rejected_and_slices_normalized _ 1).2 _ _ h0 0 0 4
      (by norm_num [psum2D, PFloat.sum, PFloat.add]) (by norm_num)

/-- Counterexample to C8 as stated: the all-zero cube `[[[[0.0]]]]`
contains no NaN, so construction with `normalize=True` succeeds — but its
single subpixel slice is divided by its own sum 0, producing NaN, and the
stored slice afterwards sums to NaN, not 1. -/
theorem c8_counterexample :
    discretePRFInit [[[[PFloat.fin 0]]]] true 1 =
      .ok ([[[[PFloat.nan]]]],
        { prf_array := [[[[PFloat.nan]]]], subsampling := 1,
          flux := 1, x_0 := 0, y_0 := 0 }) ∧
    psum2D [[PFloat.nan]] = PFloat.nan ∧ PFloat.nan ≠ PFloat.fin 1 := by
  refine ⟨?_, rfl, by simp⟩
  norm_num [discretePRFInit, cubeHasNaN, normalizeLoop, sliceDivSum,
    gridMap, psum2D, PFloat.sum, PFloat.add, PFloat.div, PFloat.isnan,
    List.range_succ]

/-! ## `Discrete2DModel.recenter` / `evaluate`
(`src/photutils/psf/models.py` lines 191-201 and 265-283). -/

/-- The state of a `Discrete2DModel` used by `evaluate`: the coordinate
origin `(_ox, _oy)`, the parameters `x_0`, `y_0`, `flux`, the image
dimensions, the fill value and the interpolating spline
(`self.interpolator.ev`, a fixed function of two coordinates —
`recenter` does not recompute it, since the spline is built from
`self._ndata` and the pixel grid only). -/
structure D2MEval where
  ox : ℚ
  oy : ℚ
  x_0 : ℚ
  y_0 : ℚ
  flux : ℚ
  nx : ℕ
  ny : ℕ
  fillval : Option ℚ
  interp : ℚ → ℚ → ℚ

/-- `Discrete2DModel.evaluate` (lines 265-283) at one sample:
`xi = x + (ox - x_0)`, `yi = y + (oy - y_0)`,
`ipsf = flux * interpolator.ev(xi, yi)`, and if `fillval` is not None,
samples with `xi`/`yi` outside `[0, nx-1] × [0, ny-1]` give `fillval`. -/
def d2mEvaluate (m : D2MEval) (x y : ℚ) : ℚ :=
  let xi := x + (m.ox - m.x_0)
  let yi := y + (m.oy - m.y_0)
  let ipsf := m.flux * m.interp xi yi
  match m.fillval with
  | none => ipsf
  | some fv =>
      if xi < 0 ∨ ((m.nx : ℚ) - 1) < xi ∨ yi < 0 ∨ ((m.ny : ℚ) - 1) < yi
      then fv else ipsf

/-- `Discrete2DModel.recenter` (lines 191-201): shift the origin by the
current parameter values and reset `x_0`, `y_0` to 0. -/
def d2mRecenter (m : D2MEval) : D2MEval :=
  { m with ox := m.ox - m.x_0, oy := m.oy - m.y_0, x_0 := 0, y_0 := 0 }

/-- C5: `recenter` leaves the output of `evaluate` at the same absolute
coordinates identical, for every model state and every query point. -/
theorem c5_recenter_evaluate_invariant (m : D2MEval) (x y : ℚ) :
    d2mEvaluate (d2mRecenter m) x y = d2mEvaluate m x y := by
  unfold d2mEvaluate d2mRecenter
  simp

/-! ## `Discrete2DModel.compute_interpolator` (lines 203-263). -/

/-- The `degree` keyword argument: a single integer or a two-element
tuple `(degx, degy)`. -/
inductive DegreeArg where
  | single : ℤ → DegreeArg
  | pair : ℤ → ℤ → DegreeArg
  deriving DecidableEq

/-- The configuration passed to `scipy.interpolate.RectBivariateSpline`
(external to this module): the per-axis spline degrees `kx`, `ky` and the
smoothing factor `s`.  The claim is about which degrees reach scipy. -/
structure SplineSpec where
  kx : ℤ
  ky : ℤ
  s : ℚ
  deriving DecidableEq

/-- `compute_interpolator` (lines 239-263): parse `degree` (default 3 per
axis), reject negative degrees with `ValueError`, parse `s` (default 0),
and construct the spline.  The source passes `kx=degx, ky=degx` at line
262, so the parsed `degy` is validated but never used. -/
def computeInterpolator (degree : Option DegreeArg) (s : Option ℚ) :
    Except String SplineSpec :=
  match degree with
  | some d =>
      let degx : ℤ := match d with | .pair a _ => a | .single a => a
      let degy : ℤ := match d with | .pair _ b => b | .single a => a
      if degx < 0 ∨ degy < 0 then
        .error "Interpolator degree must be a non-negative integer"
      else
        .ok { kx := degx, ky := degx, s := s.getD 0 }
  | none => .ok { kx := 3, ky := 3, s := s.getD 0 }

/-- C6 (code bug): with `degree=(2, 4)` the spline is built with
`kx=2, ky=2`; the y-axis degree 4 never reaches scipy because line 262
passes `ky=degx`, contradicting the claim and the method's own docstring.
The negative-degree validation does hold on either axis. -/
theorem c6_ky_gets_degx :
    computeInterpolator (some (.pair 2 4)) none =
      .ok { kx := 2, ky := 2, s := 0 } ∧
    (2 : ℤ) ≠ 4 ∧
    exOk (computeInterpolator (some (.pair 2 (-1))) none) = false ∧
    exOk (computeInterpolator (some (.pair (-1) 3)) none) = false := by
  refine ⟨?_, by norm_num, ?_, ?_⟩ <;>
    norm_num [computeInterpolator, exOk]

/-! ## `DiscretePRF.evaluate` (`src/photutils/psf/models.py` lines
367-408).  Evaluation is pure lookup arithmetic on finite values, so the
lookup cube is embedded over exact rationals here. -/

/-- Truncation toward zero: the conversion semantics of numpy
`.astype('int')` applied to a float array. -/
def truncQ (q : ℚ) : ℤ := if 0 ≤ q then ⌊q⌋ else ⌈q⌉

/-- Fractional part carrying the sign of the argument (`np.modf`). -/
def modfFrac (q : ℚ) : ℚ := q - truncQ q

/-- Modelled from `astropy.nddata.utils.subpixel_indices` (an external
dependency, not part of `src/`): for a `(y, x)` position, the subpixel
index of each coordinate is `floor(modf(coord + 0.5).frac * subsampling)`. -/
def subpixelIndices (pos : ℚ × ℚ) (subsampling : ℕ) : ℤ × ℤ :=
  (⌊modfFrac (pos.1 + 1/2) * subsampling⌋,
   ⌊modfFrac (pos.2 + 1/2) * subsampling⌋)

/-- Python/numpy sequence indexing with negative-index wraparound, used
for the subpixel slice lookup `self._prf_array[int(y_sub), int(x_sub)]`. -/
def pyGet {α : Type} (l : List α) (i : ℤ) (d : α) : α :=
  if 0 ≤ i then l.getD i.toNat d else l.getD (l.length - (-i).toNat) d

/-- A 4D PRF lookup cube over idealized finite floats. -/
abbrev CubeQ := List (List (Grid ℚ))

/-- `prf_shape` (lines 361-365): the `(rows, cols)` shape of the stored
2D PRF images (all slices share one shape; read from the first). -/
def prfShape (c : CubeQ) : ℕ × ℕ := shape2 ((c.headD []).headD [])

/-- The subpixel slice used by `evaluate`:
`self._prf_array[int(y_sub), int(x_sub)]` for
`y_sub, x_sub = subpixel_indices((y_0, x_0), subsampling)`. -/
def prfSlice (prf : CubeQ) (subsampling : ℕ) (x_0 y_0 : ℚ) : Grid ℚ :=
  let sub := subpixelIndices (y_0, x_0) subsampling
  pyGet (pyGet prf sub.1 []) sub.2 []

/-- `DiscretePRF.evaluate` (lines 388-408), staged exactly like the
source: `x = (x - x_0 + 0.5 + prf_shape[1] // 2).astype('int')` (and
likewise in y), select the subpixel slice, clamp out-of-bounds indices
to 0, gather `flux * prf[y, x]`, then zero the out-of-bounds samples. -/
def discretePRFEvaluate (prf : CubeQ) (subsampling : ℕ)
    (xs ys : List ℚ) (flux x_0 y_0 : ℚ) : List ℚ :=
  let sizeY := (prfShape prf).1
  let sizeX := (prfShape prf).2
  let xIdx := xs.map (fun x => truncQ (x - x_0 + 1/2 + ((sizeX / 2 : ℕ) : ℚ)))
  let yIdx := ys.map (fun y => truncQ (y - y_0 + 1/2 + ((sizeY / 2 : ℕ) : ℚ)))
  let xBound := xIdx.map (fun i => decide (i < 0 ∨ (sizeX : ℤ) ≤ i))
  let yBound := yIdx.map (fun i => decide (i < 0 ∨ (sizeY : ℤ) ≤ i))
  let oob := List.zipWith (fun a b => a || b) xBound yBound
  let xClamped := List.zipWith (fun i (b : Bool) => if b then 0 else i) xIdx xBound
  let yClamped := List.zipWith (fun i (b : Bool) => if b then 0 else i) yIdx yBound
  let slice := prfSlice prf subsampling x_0 y_0
  let vals := List.zipWith
    (fun yi xi => flux * ((slice.getD yi.toNat []).getD xi.toNat 0))
    yClamped xClamped
  List.zipWith (fun v (b : Bool) => if b then 0 else v) vals oob

/-- One sample of `evaluate`, written directly: the pixel index is the
*truncation toward zero* of `coord - center + 0.5 + size // 2`; in-range
samples give `flux` times the stored slice value, out-of-range samples
give 0. -/
def prfSampleTrunc (prf : CubeQ) (subsampling : ℕ)
    (flux x_0 y_0 : ℚ) (x y : ℚ) : ℚ :=
  let sizeY := (prfShape prf).1
  let sizeX := (prfShape prf).2
  let xi := truncQ (x - x_0 + 1/2 + ((sizeX / 2 : ℕ) : ℚ))
  let yi := truncQ (y - y_0 + 1/2 + ((sizeY / 2 : ℕ) : ℚ))
  if (xi < 0 ∨ (sizeX : ℤ) ≤ xi) ∨ (yi < 0 ∨ (sizeY : ℤ) ≤ yi) then 0
  else flux * (((prfSlice prf subsampling x_0 y_0).getD yi.toNat []).getD
    xi.toNat 0)

/-- The evaluation rule in the spec's own words, for the C3
counterexample: identical to `prfSampleTrunc` except that the pixel index
is `floor(coord - center + 0.5 + size // 2)`. -/
def prfSampleFloorSpec (prf : CubeQ) (subsampling : ℕ)
    (flux x_0 y_0 : ℚ) (x y : ℚ) : ℚ :=
  let sizeY := (prfShape prf).1
  let sizeX := (prfShape prf).2
  let xi := ⌊x - x_0 + 1/2 + ((sizeX / 2 : ℕ) : ℚ)⌋
  let yi := ⌊y - y_0 + 1/2 + ((sizeY / 2 : ℕ) : ℚ)⌋
  if (xi < 0 ∨ (sizeX : ℤ) ≤ xi) ∨ (yi < 0 ∨ (sizeY : ℤ) ≤ yi) then 0
  else flux * (((prfSlice prf subsampling x_0 y_0).getD yi.toNat []).getD
    xi.toNat 0)

/-- C3 (amended): `DiscretePRF.evaluate` computes, per sample, exactly
`prfSampleTrunc`: the pixel index is obtained by *truncation toward
zero* (`astype('int')`) of `coord - center + 0.5 + size // 2` — not by
`floor` as the claim states (the two differ for negative fractional
arguments; see the counterexample) — the subpixel slice is selected from
the fractional parts of `(y_0, x_0)`, in-range samples give `flux` times
the stored value, and out-of-range samples give 0. -/
theorem c3_evaluate_eq_sampleTrunc (prf : CubeQ) (subsampling : ℕ)
    (flux x_0 y_0 : ℚ) :
    ∀ (xs ys : List ℚ),
      discretePRFEvaluate prf subsampling xs ys flux x_0 y_0 =
        List.zipWith (prfSampleTrunc prf subsampling flux x_0 y_0) xs ys := by
  intro xs
  induction xs with
  | nil => intro ys; simp [discretePRFEvaluate]
  | cons x xs ih =>
      intro ys
      cases ys with
      | nil => rfl
      | cons y ys =>
          have htail := ih ys
          unfold discretePRFEvaluate at htail ⊢
          simp only [List.map_cons, List.zipWith_cons_cons]
          rw [htail]
          congr 1
          unfold prfSampleTrunc
          simp only [Bool.or_eq_true, decide_eq_true_eq]
          split_ifs <;> first | rfl | (exfalso; tauto)

/-- Counterexample to C3 as stated: at `x = -2.2`, `x_0 = 0` with a 3x3
PRF (so `x - x_0 + 0.5 + size//2 = -0.7`), `astype('int')` truncates to
index 0 (in range) and the code returns the stored value `4`, while the
claim's `floor` gives index `-1` (out of range) and demands 0. -/
theorem c3_counterexample :
    discretePRFEvaluate [[[[1, 2, 3], [4, 5, 6], [7, 8, 9]]]] 1
      [-(11/5)] [0] 1 0 0 = [4] ∧
    prfSampleFloorSpec [[[[1, 2, 3], [4, 5, 6], [7, 8, 9]]]] 1 1 0 0
      (-(11/5)) 0 = 0 ∧
    (4 : ℚ) ≠ 0 := by
  have hceil : ⌈(-(17/10) : ℚ)⌉ = -1 := by
    rw [Int.ceil_eq_iff]
    norm_num
  refine ⟨?_, ?_, by norm_num⟩ <;>
    norm_num [discretePRFEvaluate, prfSampleFloorSpec, prfSlice, prfShape,
      shape2, subpixelIndices, modfFrac, truncQ, pyGet, hceil]

/-! ## `PRFAdapter.evaluate` (`src/photutils/psf/models.py` lines
680-726). -/

/-- A parameter assignment of the wrapped PSF model. -/
abbrev PSFParams := List (String × ℚ)

/-- `setattr(psfmodel, name, v)`: update the wrapped model's named
parameter. -/
def setParam (ps : PSFParams) (name : String) (v : ℚ) : PSFParams :=
  ps.map (fun p => if p.1 = name then (p.1, v) else p)

/-- The state of a `PRFAdapter` relevant to `evaluate`: the wrapped
model's parameters (a private copy made at construction), the
renormalization scale factor `self._psf_scale_factor` (1 when
`renormalize_psf=False`), and the three optional parameter names. -/
structure PRFAdapterState where
  params : PSFParams
  scaleFactor : ℚ
  xname : Option String
  yname : Option String
  fluxname : Option String

/-- `PRFAdapter.evaluate` (lines 706-726), with the numerical per-pixel
integration `self._integrated_psfmodel(dx, dy)` abstracted as a function
`integr` of the wrapped model's current parameters and the offsets.
Returns the value and the wrapped model's parameters afterwards.
Faithful to two quirks of the source: line 715 tests `self.xname` (not
`self.yname`) to decide the `dy` branch, and line 725 sets the parameter
named `self.yname` — not `self.fluxname` — to
`flux * self._psf_scale_factor`; `setattr` with a `None` name raises
`TypeError`. -/
def prfAdapterEvaluate (ad : PRFAdapterState)
    (integr : PSFParams → ℚ → ℚ → ℚ)
    (x y flux x_0 y_0 : ℚ) : Except String (ℚ × PSFParams) :=
  match ad.xname with
  | none =>
      let dx := x - x_0
      let dy := y - y_0
      (match ad.fluxname with
       | none => .ok (flux * ad.scaleFactor * integr ad.params dx dy, ad.params)
       | some _ =>
           match ad.yname with
           | none => .error "TypeError: attribute name must be string"
           | some ynm =>
               let ps := setParam ad.params ynm (flux * ad.scaleFactor)
               .ok (integr ps dx dy, ps))
  | some xnm =>
      let dx := x
      let ps₁ := setParam ad.params xnm x_0
      match ad.yname with
      | none => .error "TypeError: attribute name must be string"
      | some ynm =>
          let dy := y
          let ps₂ := setParam ps₁ ynm y_0
          (match ad.fluxname with
           | none => .ok (flux * ad.scaleFactor * integr ps₂ dx dy, ps₂)
           | some _ =>
               let ps₃ := setParam ps₂ ynm (flux * ad.scaleFactor)
               .ok (integr ps₃ dx dy, ps₃))

/-- C7 (code bug): with `xname="xc"`, `yname="yc"`, `fluxname="fl"`,
scale factor 1, evaluating at `flux=7`, `x_0=2`, `y_0=3` leaves the
wrapped model's `"fl"` parameter untouched at 1 and instead overwrites
`"yc"` (just set to `y_0=3`) with `flux * scale = 7`: the source's
`setattr(self.psfmodel, self.yname, flux * self._psf_scale_factor)` at
line 725 names `yname` where its docstring promises `fluxname`. -/
theorem c7_flux_written_to_yname (integr : PSFParams → ℚ → ℚ → ℚ) :
    prfAdapterEvaluate
      { params := [("xc", 0), ("yc", 0), ("fl", 1)], scaleFactor := 1,
        xname := some "xc", yname := some "yc", fluxname := some "fl" }
      integr 0 0 7 2 3 =
      .ok (integr [("xc", 2), ("yc", 7), ("fl", 1)] 0 0,
           [("xc", 2), ("yc", 7), ("fl", 1)]) ∧
    (1 : ℚ) ≠ 7 * 1 := by
  refine ⟨?_, by norm_num⟩
  have h1 : ("xc" : String) ≠ "yc" := by decide
  have h2 : ("yc" : String) ≠ "xc" := by decide
  have h3 : ("fl" : String) ≠ "xc" := by decide
  have h4 : ("fl" : String) ≠ "yc" := by decide
  norm_num [prfAdapterEvaluate, setParam, h1, h2, h3, h4]

/-! ## Segmentation engine (`src/photutils/segmentation.py`)

Caller-visible numpy arrays live in an explicit heap (`Heap`), and every
numpy operation is translated according to whether it allocates a fresh
array (`alloc`) or writes through an existing one (`heapSet`), so frame
properties about the caller's arrays are statements about the store.
Boolean masks are embedded as rational grids in the same heap with
"nonzero = True" (matching `mask.nonzero()` / `~mask`).  Astropy units
(`u.Quantity`) are not modeled. -/

/-- The heap of caller-visible arrays; a reference is an index. -/
abbrev Heap := List (Grid ℚ)

def heapGet (h : Heap) (r : ℕ) : Grid ℚ := h.getD r []

def heapSet (h : Heap) (r : ℕ) (g : Grid ℚ) : Heap := h.set r g

/-- Allocating a fresh array appends it to the heap; its reference is
the old heap length. -/

def gridGet (g : Grid ℚ) (i j : ℕ) : ℚ := (g.getD i []).getD j 0

def gridSet (g : Grid ℚ) (i j : ℕ) (v : ℚ) : Grid ℚ :=
  g.set i ((g.getD i []).set j v)

/-- Elementwise binary operation on two arrays of equal shape. -/
def gridZip (f : ℚ → ℚ → ℚ) (a b : Grid ℚ) : Grid ℚ :=
  List.zipWith (List.zipWith f) a b

/-- An `m × n` constant array (`np.zeros_like(...) + q`, broadcasting). -/
def constGrid (m n : ℕ) (q : ℚ) : Grid ℚ :=
  List.replicate m (List.replicate n q)

def gridAny (p : ℚ → Bool) (g : Grid ℚ) : Bool := g.any (·.any p)

/-- The `background` argument: a scalar or a caller-supplied 2D array. -/
inductive BkgArg where
  | scalar : ℚ → BkgArg
  | arr : ℕ → BkgArg
  deriving DecidableEq

/-- The `gain` argument: a scalar or a 2D array (read-only, so passed by
value). -/
inductive GainArg where
  | scalar : ℚ → GainArg
  | arr : Grid ℚ → GainArg
  deriving DecidableEq

/-- `_subtract_background` (lines 869-889): for a scalar background,
`bkgrd_image = np.zeros_like(data) + background` allocates a fresh
array; for a 2D background the shape is checked and `bkgrd_image` *is*
the caller's array (line 888, no copy).  Returns the reference of the
fresh array `data - bkgrd_image` and the reference of `bkgrd_image`. -/
def subtractBackground (h : Heap) (dataRef : ℕ) (bkg : BkgArg) :
    Except String (Heap × ℕ × ℕ) :=
  match bkg with
  | .scalar q =>
      let d := heapGet h dataRef
      let bref := h.length
      let h := h ++ [constGrid (shape2 d).1 (shape2 d).2 q]
      let dref := h.length
      let h := h ++ [gridZip (fun a b => a - b) d (heapGet h bref)]
      .ok (h, dref, bref)
  | .arr r =>
      if shape2 (heapGet h r) ≠ shape2 (heapGet h dataRef) then
        .error "If input background is 2D, then it must have the same shape as the input data."
      else
        let dref := h.length
        let h := h ++
          [gridZip (fun a b => a - b) (heapGet h dataRef) (heapGet h r)]
        .ok (h, dref, r)

/-- `_apply_gain` (lines 892-902): broadcast a scalar gain to the data's
shape, check the shape, reject a gain that is anywhere `<= 0`, and return
the fresh array `variance + data / gain`. -/
def applyGain (h : Heap) (dataRef varRef : ℕ) (gain : GainArg) :
    Except String (Heap × ℕ) :=
  let d := heapGet h dataRef
  let g : Grid ℚ := match gain with
    | .scalar q => constGrid (shape2 d).1 (shape2 d).2 q
    | .arr a => a
  if shape2 g ≠ shape2 d then
    .error "If input gain is 2D, then it must have the same shape as the input data."
  else if gridAny (fun q => decide (q ≤ 0)) g then
    .error "gain must be positive everywhere"
  else
    let vref := h.length
    let h := h ++
      [gridZip (fun a b => a + b) (heapGet h varRef)
        (gridZip (fun a b => a / b) d g)]
    .ok (h, vref)

/-- `mask.nonzero()`: row-major positions of the nonzero mask entries. -/
def nonzeroIdx (mask : Grid ℚ) : List (ℕ × ℕ) :=
  ((List.range mask.length).map (fun j =>
    (List.range ((mask.getD j []).length)).filterMap (fun i =>
      if (mask.getD j []).getD i 0 ≠ 0 then some (j, i) else none))).flatten

/-- The clipped 3x3 window around `(j, i)`:
`y0, y1 = max(j-1, 0), min(j+2, shape[0])` and likewise in x. -/
def windowCells (shape : ℕ × ℕ) (j i : ℕ) : List (ℕ × ℕ) :=
  let y0 := j - 1
  let y1 := min (j + 2) shape.1
  let x0 := i - 1
  let x1 := min (i + 2) shape.2
  ((List.range' y0 (y1 - y0)).map (fun r =>
    (List.range' x0 (x1 - x0)).map (fun c => (r, c)))).flatten

/-- `np.mean(arr[y0:y1, x0:x1][goodpix])` with `goodpix = ~mask[window]`:
sum over unmasked window cells divided by their count (an all-masked
window yields numpy NaN; the rational division by 0 gives 0 here, a case
no theorem exercises). -/
def windowMean (g mask : Grid ℚ) (shape : ℕ × ℕ) (j i : ℕ) : ℚ :=
  let cells := (windowCells shape j i).filter
    (fun rc => decide (gridGet mask rc.1 rc.2 = 0))
  (cells.map (fun rc => gridGet g rc.1 rc.2)).sum / cells.length

/-- `arr[mask_idx] = 0` on an optional array (`if arr is not None`):
zero the masked pixels of the array at `t?`, when present. -/
def maskWriteZero (idx : List (ℕ × ℕ)) (t? : Option ℕ) (hh : Heap) : Heap :=
  match t? with
  | some t => idx.foldl
      (fun hh rc => heapSet hh t (gridSet (heapGet hh t) rc.1 rc.2 0)) hh
  | none => hh

/-- `arr[j, i] = np.mean(arr[window][goodpix])` on an optional array:
one interpolation write at `rc`, when the array is present. -/
def maskWriteMean (mask : Grid ℚ) (shape : ℕ × ℕ) (rc : ℕ × ℕ)
    (t? : Option ℕ) (hh : Heap) : Heap :=
  match t? with
  | some t => heapSet hh t (gridSet (heapGet hh t) rc.1 rc.2
      (windowMean (heapGet hh t) mask shape rc.1 rc.2))
  | none => hh

/-- `_apply_mask` (lines 905-932): check shapes, deep-copy the data
(line 910, `do not modify input data`), then write through the data copy
and — crucially — through the *aliased* background and variance arrays:
`'exclude'` zeroes the masked pixels, `'interpolate'` replaces each
masked pixel (in row-major order) by the mean of its unmasked 8-connected
neighbors, and any other method string raises `ValueError` before any
write. -/
def applyMask (h : Heap) (dataRef maskRef : ℕ) (method : String)
    (varRef? bkgRef? : Option ℕ) : Except String (Heap × ℕ) :=
  let d := heapGet h dataRef
  let mask := heapGet h maskRef
  if shape2 d ≠ shape2 mask then
    .error "data and mask must have the same shape"
  else
    let dref := h.length
    let h := h ++ [d]
    let idx := nonzeroIdx mask
    if method = "exclude" then
      let h := idx.foldl
        (fun h rc => heapSet h dref (gridSet (heapGet h dref) rc.1 rc.2 0)) h
      let h := maskWriteZero idx bkgRef? h
      let h := maskWriteZero idx varRef? h
      .ok (h, dref)
    else if method = "interpolate" then
      let shape := shape2 d
      let h := idx.foldl (fun h rc =>
        let h := heapSet h dref (gridSet (heapGet h dref) rc.1 rc.2
          (windowMean (heapGet h dref) mask shape rc.1 rc.2))
        let h := maskWriteMean mask shape rc bkgRef? h
        maskWriteMean mask shape rc varRef? h) h
      .ok (h, dref)
    else
      .error "mask_method is not valid"

/-- Lines 850-851 of `_prepare_data`: optional background subtraction
(rebinds the local `data` to a fresh array). -/
def prepStep1 (h : Heap) (dataRef : ℕ) (bkg? : Option BkgArg) :
    Except String (Heap × ℕ × Option ℕ) :=
  match bkg? with
  | some b =>
      match subtractBackground h dataRef b with
      | .error e => .error e
      | .ok (h, dref, bref) => .ok (h, dref, some bref)
  | none => .ok (h, dataRef, none)

/-- Lines 853-860 of `_prepare_data`: `variance = error**2` (fresh
array) and the optional gain application (also fresh). -/
def prepStep2 (h : Heap) (dref : ℕ) (errorRef? : Option ℕ)
    (gain? : Option GainArg) : Except String (Heap × Option ℕ) :=
  match errorRef? with
  | some er =>
      if shape2 (heapGet h dref) ≠ shape2 (heapGet h er) then
        .error "data and error must have the same shape"
      else
        let vref := h.length
        let h := h ++ [gridZip (fun a b => a * b) (heapGet h er) (heapGet h er)]
        match gain? with
        | some g =>
            match applyGain h dref vref g with
            | .error e => .error e
            | .ok (h, vref) => .ok (h, some vref)
        | none => .ok (h, some vref)
  | none => .ok (h, none)

/-- `_prepare_data` (lines 846-866): background subtraction, variance
and gain, then optional masking (which deep-copies data but writes
through the variance and background arrays). -/
def prepareData (h : Heap) (dataRef : ℕ) (errorRef? : Option ℕ)
    (gain? : Option GainArg) (maskRef? : Option ℕ) (method : String)
    (bkg? : Option BkgArg) :
    Except String (Heap × ℕ × Option ℕ × Option ℕ) :=
  match prepStep1 h dataRef bkg? with
  | .error e => .error e
  | .ok (h, dref, bref?) =>
      match prepStep2 h dref errorRef? gain? with
      | .error e => .error e
      | .ok (h, vref?) =>
          match maskRef? with
          | some mr =>
              match applyMask h dref mr method vref? bref? with
              | .error e => .error e
              | .ok (h, dref) => .ok (h, dref, vref?, bref?)
          | none => .ok (h, dref, vref?, bref?)

/-- A `(y_slice, x_slice)` pair: `((ystart, ystop), (xstart, xstop))`. -/
abbrev SliceBox := (ℕ × ℕ) × (ℕ × ℕ)

/-- Row-major positions of the entries equal to `l`. -/
def labelPositions (seg : Grid ℤ) (l : ℤ) : List (ℕ × ℕ) :=
  ((List.range seg.length).map (fun r =>
    (List.range ((seg.getD r []).length)).filterMap (fun c =>
      if (seg.getD r []).getD c 0 = l then some (r, c) else none))).flatten

/-- The minimal bounding slice of label `l`, or `none` when absent. -/
def bboxOf (seg : Grid ℤ) (l : ℤ) : Option SliceBox :=
  match labelPositions seg l with
  | [] => none
  | p :: ps =>
      let rs := (p :: ps).map Prod.fst
      let cs := (p :: ps).map Prod.snd
      some ((rs.foldl min p.1, rs.foldl max p.1 + 1),
            (cs.foldl min p.2, cs.foldl max p.2 + 1))

/-- Modelled from `scipy.ndimage.find_objects` (external dependency): a
list of length `max(seg)` whose `k`-th entry is the bounding slice of
label `k+1`, or `None` for labels not present. -/
def findObjects (seg : Grid ℤ) : List (Option SliceBox) :=
  let maxLabel := (seg.flatten.foldl max 0).toNat
  (List.range maxLabel).map (fun (k : ℕ) => bboxOf seg ((k : ℤ) + 1))

/-- The state stored by a successfully constructed `SegmentProperties`. -/
structure SegProps where
  label : ℤ
  sliceBox : SliceBox
  imageRef : ℕ
  varRef : Option ℕ
  bkgRef : Option ℕ
  maskRef : Option ℕ
  deriving DecidableEq

/-- `SegmentProperties.__init__` (lines 23-131): shape check, label
checks, `_prepare_data`, then the label-slice lookup
(`find_objects(segment_image)[label - 1]`, raising `IndexError` past the
end and `ValueError` for an absent label) — skipped entirely when the
caller supplies `label_slice` — and finally the stored mask (a fresh
all-False array for `'interpolate'`, the caller's mask otherwise). -/
def segmentPropertiesInit (h : Heap) (dataRef : ℕ) (seg : Grid ℤ)
    (label : ℤ) (labelSlice? : Option SliceBox) (errorRef? : Option ℕ)
    (gain? : Option GainArg) (maskRef? : Option ℕ) (method : String)
    (bkg? : Option BkgArg) : Except String (Heap × SegProps) :=
  if shape2 seg ≠ shape2 (heapGet h dataRef) then
    .error "segment_image and data must have the same shape"
  else if label = 0 then
    .error "label 0 is reserved for the background"
  else if label < 0 then
    .error "label must be a positive integer"
  else
    match prepareData h dataRef errorRef? gain? maskRef? method bkg? with
    | .error e => .error e
    | .ok (h, imageRef, vref?, bref?) =>
        let sliceRes : Except String SliceBox :=
          match labelSlice? with
          | some sl => .ok sl
          | none =>
              let slices := findObjects seg
              if hidx : (label - 1).toNat < slices.length then
                match slices.get ⟨(label - 1).toNat, hidx⟩ with
                | some sl => .ok sl
                | none => .error "label is not in the input segment_image"
              else .error "IndexError: list index out of range"
        match sliceRes with
        | .error e => .error e
        | .ok sl =>
            let res : Heap × Option ℕ :=
              if method = "interpolate" then
                let sh := shape2 (heapGet h imageRef)
                (h ++ [constGrid sh.1 sh.2 0], some h.length)
              else (h, maskRef?)
            .ok (res.1, { label := label, sliceBox := sl,
                          imageRef := imageRef, varRef := vref?,
                          bkgRef := bref?, maskRef := res.2 })

section C2Helpers

/-- If a label occurs in no row, it has no positions. -/
theorem labelPositions_eq_nil {seg : Grid ℤ} {l : ℤ}
    (h : ∀ row ∈ seg, l ∉ row) : labelPositions seg l = [] := by
  unfold labelPositions
  rw [List.flatten_eq_nil_iff]
  intro xs hxs
  obtain ⟨r, hr, rfl⟩ := List.mem_map.mp hxs
  rw [List.filterMap_eq_nil_iff]
  intro c hc
  rw [List.mem_range] at hr hc
  rw [if_neg]
  intro hlc
  have hrow : seg.getD r [] ∈ seg := by
    rw [List.getD_eq_getElem?_getD, List.getElem?_eq_getElem hr]
    exact List.getElem_mem hr
  have hcell : (seg.getD r []).getD c 0 ∈ seg.getD r [] := by
    rw [List.getD_eq_getElem?_getD (seg.getD r []),
      List.getElem?_eq_getElem hc]
    exact List.getElem_mem hc
  exact h _ hrow (hlc ▸ hcell)

/-- An absent label has no bounding box. -/
theorem bboxOf_eq_none {seg : Grid ℤ} {l : ℤ}
    (h : ∀ row ∈ seg, l ∉ row) : bboxOf seg l = none := by
  unfold bboxOf
  rw [labelPositions_eq_nil h]

/-- `_apply_mask` fails for any unsupported `mask_method`. -/
theorem applyMask_isError_of_badMethod (h : Heap) (dataRef maskRef : ℕ)
    (method : String) (varRef? bkgRef? : Option ℕ)
    (h1 : method ≠ "exclude") (h2 : method ≠ "interpolate") :
    exOk (applyMask h dataRef maskRef method varRef? bkgRef?) = false := by
  simp only [applyMask]
  split_ifs with hs
  · rfl
  · rfl

/-- `_apply_gain` fails when a 2D gain is anywhere `<= 0`. -/
theorem applyGain_isError_of_nonpos_arr (h : Heap) (dataRef varRef : ℕ)
    (a : Grid ℚ) (ha : gridAny (fun q => decide (q ≤ 0)) a = true) :
    exOk (applyGain h dataRef varRef (.arr a)) = false := by
  simp only [applyGain]
  split_ifs with hs
  · rfl
  · rfl

theorem gridAny_constGrid {m n : ℕ} {q : ℚ} {p : ℚ → Bool}
    (hm : 0 < m) (hn : 0 < n) (hq : p q = true) :
    gridAny p (constGrid m n q) = true := by
  unfold gridAny constGrid
  rw [List.any_eq_true]
  refine ⟨List.replicate n q, List.mem_replicate.mpr ⟨by omega, rfl⟩, ?_⟩
  rw [List.any_eq_true]
  exact ⟨q, List.mem_replicate.mpr ⟨by omega, rfl⟩, hq⟩

theorem shape2_constGrid {m n : ℕ} {q : ℚ} (hm : 0 < m) :
    shape2 (constGrid m n q) = (m, n) := by
  unfold shape2 constGrid
  cases m with
  | zero => omega
  | succ m => simp [List.replicate_succ]

/-- `_apply_gain` fails for a scalar gain `<= 0` on a nonempty image. -/
theorem applyGain_isError_of_nonpos_scalar (h : Heap) (dataRef varRef : ℕ)
    (q : ℚ) (hq : q ≤ 0)
    (hm : 0 < (shape2 (heapGet h dataRef)).1)
    (hn : 0 < (shape2 (heapGet h dataRef)).2) :
    exOk (applyGain h dataRef varRef (.scalar q)) = false := by
  have hany : gridAny (fun r => decide (r ≤ 0))
      (constGrid (shape2 (heapGet h dataRef)).1
        (shape2 (heapGet h dataRef)).2 q) = true :=
    gridAny_constGrid hm hn (by simpa using hq)
  simp only [applyGain]
  split_ifs with hs
  · rfl
  · rfl

end C2Helpers

section HeapLemmas

theorem heapGet_append_self (h : Heap) (g : Grid ℚ) :
    heapGet (h ++ [g]) h.length = g := by
  induction h with
  | nil => rfl
  | cons x h ih => simp [heapGet] at ih ⊢

theorem heapGet_append_of_lt (h : Heap) (g : Grid ℚ) (r : ℕ)
    (hr : r < h.length) : heapGet (h ++ [g]) r = heapGet h r := by
  unfold heapGet
  rw [List.getD_eq_getElem?_getD, List.getD_eq_getElem?_getD,
    List.getElem?_append_left hr]

theorem heapGet_set_ne (h : Heap) (r r' : ℕ) (g : Grid ℚ) (hne : r ≠ r') :
    heapGet (heapSet h r' g) r = heapGet h r := by
  unfold heapGet heapSet
  rw [List.getD_eq_getElem?_getD, List.getD_eq_getElem?_getD,
    List.getElem?_set_ne (by omega)]

theorem shape2_gridZip (f : ℚ → ℚ → ℚ) (a b : Grid ℚ)
    (hab : shape2 b = shape2 a) : shape2 (gridZip f a b) = shape2 a := by
  unfold shape2 at hab ⊢
  unfold gridZip
  obtain ⟨h1, h2⟩ := Prod.mk.injEq .. ▸ hab
  cases a with
  | nil => simp_all
  | cons ra a =>
      cases b with
      | nil => simp_all
      | cons rb b => simp_all [Nat.min_eq_left, Nat.min_eq_right, le_of_eq]

end HeapLemmas

section C2Propagation

theorem applyMask_ne_ok_of_badMethod {h : Heap} {dataRef maskRef : ℕ}
    {method : String} {varRef? bkgRef? : Option ℕ} {res : Heap × ℕ}
    (h1 : method ≠ "exclude") (h2 : method ≠ "interpolate")
    (heq : applyMask h dataRef maskRef method varRef? bkgRef? = .ok res) :
    False := by
  have hbad := applyMask_isError_of_badMethod h dataRef maskRef method
    varRef? bkgRef? h1 h2
  rw [heq] at hbad
  exact absurd hbad (by simp [exOk])

theorem applyGain_ne_ok_of_nonpos_arr {h : Heap} {dataRef varRef : ℕ}
    {a : Grid ℚ} {res : Heap × ℕ}
    (ha : gridAny (fun q => decide (q ≤ 0)) a = true)
    (heq : applyGain h dataRef varRef (.arr a) = .ok res) : False := by
  have hbad := applyGain_isError_of_nonpos_arr h dataRef varRef a ha
  rw [heq] at hbad
  exact absurd hbad (by simp [exOk])

theorem applyGain_ne_ok_of_nonpos_scalar {h : Heap} {dataRef varRef : ℕ}
    {q : ℚ} {res : Heap × ℕ} (hq : q ≤ 0)
    (hm : 0 < (shape2 (heapGet h dataRef)).1)
    (hn : 0 < (shape2 (heapGet h dataRef)).2)
    (heq : applyGain h dataRef varRef (.scalar q) = .ok res) : False := by
  have hbad := applyGain_isError_of_nonpos_scalar h dataRef varRef q hq hm hn
  rw [heq] at hbad
  exact absurd hbad (by simp [exOk])

theorem shape2_constGrid_of_shape (d : Grid ℚ) (q : ℚ) :
    shape2 (constGrid (shape2 d).1 (shape2 d).2 q) = shape2 d := by
  cases d with
  | nil => rfl
  | cons r d => exact shape2_constGrid (by simp [shape2])

/-- `_subtract_background` preserves the data shape. -/
theorem subtractBackground_shape {h : Heap} {dataRef : ℕ} {b : BkgArg}
    {h' : Heap} {dref bref : ℕ}
    (hok : subtractBackground h dataRef b = .ok (h', dref, bref)) :
    shape2 (heapGet h' dref) = shape2 (heapGet h dataRef) := by
  cases b with
  | scalar q =>
      simp only [subtractBackground, Except.ok.injEq, Prod.mk.injEq] at hok
      obtain ⟨rfl, rfl, rfl⟩ := hok
      rw [heapGet_append_self]
      apply shape2_gridZip
      rw [heapGet_append_self]
      exact shape2_constGrid_of_shape _ _
  | arr r =>
      simp only [subtractBackground] at hok
      split at hok
      · exact (Except.noConfusion hok)
      · rename_i hsh
        simp only [Except.ok.injEq, Prod.mk.injEq] at hok
        obtain ⟨rfl, rfl, rfl⟩ := hok
        rw [heapGet_append_self]
        exact shape2_gridZip _ _ _ (not_not.mp (by simpa using hsh))

end C2Propagation

/-- A successful `prepStep1` preserves the data shape. -/
theorem prepStep1_shape {h : Heap} {dataRef : ℕ} {bkg? : Option BkgArg}
    {h₁ : Heap} {dref : ℕ} {bref? : Option ℕ}
    (heq : prepStep1 h dataRef bkg? = .ok (h₁, dref, bref?)) :
    shape2 (heapGet h₁ dref) = shape2 (heapGet h dataRef) := by
  cases bkg? with
  | none =>
      simp only [prepStep1, Except.ok.injEq, Prod.mk.injEq] at heq
      obtain ⟨rfl, rfl, -⟩ := heq
      rfl
  | some b =>
      simp only [prepStep1] at heq
      cases hsb : subtractBackground h dataRef b with
      | error e => rw [hsb] at heq; exact Except.noConfusion heq
      | ok val =>
          obtain ⟨h', dref', bref'⟩ := val
          rw [hsb] at heq
          simp only [Except.ok.injEq, Prod.mk.injEq] at heq
          obtain ⟨rfl, rfl, -⟩ := heq
          exact subtractBackground_shape hsb

/-- `prepStep2` cannot succeed when the supplied 2D gain is anywhere
`<= 0`. -/
theorem prepStep2_ne_ok_of_nonpos_arr {h : Heap} {dref er : ℕ}
    {a : Grid ℚ} {res : Heap × Option ℕ}
    (ha : gridAny (fun q => decide (q ≤ 0)) a = true)
    (heq : prepStep2 h dref (some er) (some (.arr a)) = .ok res) :
    False := by
  simp only [prepStep2] at heq
  split at heq
  · exact Except.noConfusion heq
  · split at heq
    · exact Except.noConfusion heq
    · rename_i heq3
      exact applyGain_ne_ok_of_nonpos_arr ha heq3

/-- `prepStep2` cannot succeed when the supplied scalar gain is `<= 0`
and the image is nonempty. -/
theorem prepStep2_ne_ok_of_nonpos_scalar {h : Heap} {dref er : ℕ}
    {q : ℚ} {res : Heap × Option ℕ} (hq : q ≤ 0)
    (hm : 0 < (shape2 (heapGet h dref)).1)
    (hn : 0 < (shape2 (heapGet h dref)).2)
    (heq : prepStep2 h dref (some er) (some (.scalar q)) = .ok res) :
    False := by
  simp only [prepStep2] at heq
  split at heq
  · exact Except.noConfusion heq
  · split at heq
    · exact Except.noConfusion heq
    · rename_i heq3
      have hlt : dref < h.length := by
        by_contra hge
        have hnil : heapGet h dref = [] := by
          unfold heapGet
          rw [List.getD_eq_getElem?_getD, List.getElem?_eq_none (le_of_not_lt hge)]
          rfl
        rw [hnil] at hm
        simp [shape2] at hm
      refine applyGain_ne_ok_of_nonpos_scalar hq ?_ ?_ heq3 <;>
        (rw [heapGet_append_of_lt _ _ _ hlt]; assumption)

/-- `_prepare_data` fails for an unsupported `mask_method` whenever a
mask is supplied. -/
theorem prepareData_isError_of_badMethod (h : Heap) (dataRef : ℕ)
    (errorRef? : Option ℕ) (gain? : Option GainArg) (mr : ℕ)
    (method : String) (bkg? : Option BkgArg)
    (h1 : method ≠ "exclude") (h2 : method ≠ "interpolate") :
    exOk (prepareData h dataRef errorRef? gain? (some mr) method bkg?)
      = false := by
  unfold prepareData
  cases hs1 : prepStep1 h dataRef bkg? with
  | error e => rfl
  | ok val =>
      obtain ⟨h₁, dref, bref?⟩ := val
      dsimp only
      cases hs2 : prepStep2 h₁ dref errorRef? gain? with
      | error e => rfl
      | ok val2 =>
          obtain ⟨h₂, vref?⟩ := val2
          dsimp only
          cases ham : applyMask h₂ dref mr method vref? bref? with
          | error e => rfl
          | ok res => exact (applyMask_ne_ok_of_badMethod h1 h2 ham).elim

/-- `_prepare_data` fails when an error array is supplied together with
a 2D gain that is anywhere `<= 0`. -/
theorem prepareData_isError_of_nonpos_gain_arr (h : Heap) (dataRef : ℕ)
    (er : ℕ) (a : Grid ℚ) (maskRef? : Option ℕ) (method : String)
    (bkg? : Option BkgArg)
    (ha : gridAny (fun q => decide (q ≤ 0)) a = true) :
    exOk (prepareData h dataRef (some er) (some (.arr a)) maskRef? method
      bkg?) = false := by
  unfold prepareData
  cases hs1 : prepStep1 h dataRef bkg? with
  | error e => rfl
  | ok val =>
      obtain ⟨h₁, dref, bref?⟩ := val
      dsimp only
      cases hs2 : prepStep2 h₁ dref (some er) (some (.arr a)) with
      | error e => rfl
      | ok val2 => exact (prepStep2_ne_ok_of_nonpos_arr ha hs2).elim

/-- `_prepare_data` fails when an error array is supplied together with
a scalar gain `<= 0` (on a nonempty image). -/
theorem prepareData_isError_of_nonpos_gain_scalar (h : Heap)
    (dataRef : ℕ) (er : ℕ) (q : ℚ) (maskRef? : Option ℕ)
    (method : String) (bkg? : Option BkgArg) (hq : q ≤ 0)
    (hm : 0 < (shape2 (heapGet h dataRef)).1)
    (hn : 0 < (shape2 (heapGet h dataRef)).2) :
    exOk (prepareData h dataRef (some er) (some (.scalar q)) maskRef?
      method bkg?) = false := by
  unfold prepareData
  cases hs1 : prepStep1 h dataRef bkg? with
  | error e => rfl
  | ok val =>
      obtain ⟨h₁, dref, bref?⟩ := val
      dsimp only
      cases hs2 : prepStep2 h₁ dref (some er) (some (.scalar q)) with
      | error e => rfl
      | ok val2 =>
          have hsh := prepStep1_shape hs1
          exact (prepStep2_ne_ok_of_nonpos_scalar hq
            (by rw [hsh]; exact hm) (by rw [hsh]; exact hn) hs2).elim

/-- C2 (amended): each of the following causes `SegmentProperties`
construction to fail with an exception and no object: mismatched
image/label-map shapes; label 0; a negative label; a label absent from
the label map *when no `label_slice` is supplied*; an unsupported
`mask_method` string *when a mask is supplied*; and a gain that is
`<= 0` anywhere *when an error array is supplied* (2D gain, or scalar
gain on a nonempty image).  (As stated the claim fails: with no mask the
`mask_method` string is never validated, and with no error array the
gain is never inspected — see the counterexample.) -/
theorem c2_failure_modes (h : Heap) (dataRef : ℕ) (seg : Grid ℤ)
    (label : ℤ) (labelSlice? : Option SliceBox) (errorRef? : Option ℕ)
    (gain? : Option GainArg) (maskRef? : Option ℕ) (method : String)
    (bkg? : Option BkgArg) :
    (shape2 seg ≠ shape2 (heapGet h dataRef) →
      exOk (segmentPropertiesInit h dataRef seg label labelSlice? errorRef?
        gain? maskRef? method bkg?) = false) ∧
    (label = 0 →
      exOk (segmentPropertiesInit h dataRef seg label labelSlice? errorRef?
        gain? maskRef? method bkg?) = false) ∧
    (label < 0 →
      exOk (segmentPropertiesInit h dataRef seg label labelSlice? errorRef?
        gain? maskRef? method bkg?) = false) ∧
    (0 < label → labelSlice? = none → (∀ row ∈ seg, label ∉ row) →
      exOk (segmentPropertiesInit h dataRef seg label labelSlice? errorRef?
        gain? maskRef? method bkg?) = false) ∧
    (∀ mr, maskRef? = some mr → method ≠ "exclude" →
      method ≠ "interpolate" →
      exOk (segmentPropertiesInit h dataRef seg label labelSlice? errorRef?
        gain? maskRef? method bkg?) = false) ∧
    (∀ er a, errorRef? = some er → gain? = some (.arr a) →
      gridAny (fun q => decide (q ≤ 0)) a = true →
      exOk (segmentPropertiesInit h dataRef seg label labelSlice? errorRef?
        gain? maskRef? method bkg?) = false) ∧
    (∀ er q, errorRef? = some er → gain? = some (.scalar q) → q ≤ 0 →
      0 < (shape2 (heapGet h dataRef)).1 →
      0 < (shape2 (heapGet h dataRef)).2 →
      exOk (segmentPropertiesInit h dataRef seg label labelSlice? errorRef?
        gain? maskRef? method bkg?) = false) := by
  refine ⟨?_, ?_, ?_, ?_, ?_, ?_, ?_⟩
  · intro hx
    unfold segmentPropertiesInit
    split_ifs
    rfl
  · intro hx
    unfold segmentPropertiesInit
    split_ifs <;> rfl
  · intro hx
    unfold segmentPropertiesInit
    split_ifs <;> rfl
  · intro hpos hsl habs
    subst hsl
    have hget : ∀ (hidx : (label - 1).toNat < (findObjects seg).length),
        (findObjects seg).get ⟨(label - 1).toNat, hidx⟩ = none := by
      intro hidx
      rw [List.get_eq_getElem]
      have hidx' : (label - 1).toNat <
          (List.range ((seg.flatten.foldl max 0).toNat)).length := by
        simpa [findObjects] using hidx
      unfold findObjects
      rw [List.getElem_map, List.getElem_range]
      rw [show ((((label - 1).toNat : ℕ) : ℤ) + 1) = label by omega]
      exact bboxOf_eq_none habs
    unfold segmentPropertiesInit
    by_cases h01 : shape2 seg ≠ shape2 (heapGet h dataRef)
    · rw [if_pos h01]; rfl
    · rw [if_neg h01, if_neg (by omega : ¬ label = 0),
        if_neg (by omega : ¬ label < 0)]
      cases hp : prepareData h dataRef errorRef? gain? maskRef? method
        bkg? with
      | error e => rfl
      | ok val =>
          obtain ⟨h₁, iref, vref?, bref?⟩ := val
          dsimp only
          rcases Nat.lt_or_ge ((label - 1).toNat)
            ((findObjects seg).length) with hidx | hidx
          · rw [dif_pos hidx, hget hidx]
            rfl
          · rw [dif_neg (not_lt.mpr hidx)]
            rfl
  · intro mr hmr h1 h2
    subst hmr
    unfold segmentPropertiesInit
    by_cases h01 : shape2 seg ≠ shape2 (heapGet h dataRef)
    · rw [if_pos h01]; rfl
    · rw [if_neg h01]
      by_cases h02 : label = 0
      · rw [if_pos h02]; rfl
      · rw [if_neg h02]
        by_cases h03 : label < 0
        · rw [if_pos h03]; rfl
        · rw [if_neg h03]
          cases hp : prepareData h dataRef errorRef? gain? (some mr)
            method bkg? with
          | error e => rfl
          | ok val =>
              have hbad := prepareData_isError_of_badMethod h dataRef
                errorRef? gain? mr method bkg? h1 h2
              rw [hp] at hbad
              exact absurd hbad (by simp [exOk])
  · intro er a her hg ha
    subst her
    subst hg
    unfold segmentPropertiesInit
    by_cases h01 : shape2 seg ≠ shape2 (heapGet h dataRef)
    · rw [if_pos h01]; rfl
    · rw [if_neg h01]
      by_cases h02 : label = 0
      · rw [if_pos h02]; rfl
      · rw [if_neg h02]
        by_cases h03 : label < 0
        · rw [if_pos h03]; rfl
        · rw [if_neg h03]
          cases hp : prepareData h dataRef (some er) (some (.arr a))
            maskRef? method bkg? with
          | error e => rfl
          | ok val =>
              have hbad := prepareData_isError_of_nonpos_gain_arr h
                dataRef er a maskRef? method bkg? ha
              rw [hp] at hbad
              exact absurd hbad (by simp [exOk])
  · intro er q her hg hq hm hn
    subst her
    subst hg
    unfold segmentPropertiesInit
    by_cases h01 : shape2 seg ≠ shape2 (heapGet h dataRef)
    · rw [if_pos h01]; rfl
    · rw [if_neg h01]
      by_cases h02 : label = 0
      · rw [if_pos h02]; rfl
      · rw [if_neg h02]
        by_cases h03 : label < 0
        · rw [if_pos h03]; rfl
        · rw [if_neg h03]
          cases hp : prepareData h dataRef (some er) (some (.scalar q))
            maskRef? method bkg? with
          | error e => rfl
          | ok val =>
              have hbad := prepareData_isError_of_nonpos_gain_scalar h
                dataRef er q maskRef? method bkg? hq hm hn
              rw [hp] at hbad
              exact absurd hbad (by simp [exOk])

/-- Counterexample to C2 as stated: with no mask supplied, construction
*succeeds* even though `mask_method="frobnicate"` is not a supported
value — the method string is only validated inside `_apply_mask`, which
is never called when `mask is None`. -/
theorem c2_counterexample :
    segmentPropertiesInit [[[1]]] 0 [[1]] 1 none none none none
      "frobnicate" none =
      .ok ([[[1]]],
        { label := 1, sliceBox := ((0, 1), (0, 1)), imageRef := 0,
          varRef := none, bkgRef := none, maskRef := none }) ∧
    ("frobnicate" ≠ "exclude" ∧ "frobnicate" ≠ "interpolate") := by
  refine ⟨?_, by decide, by decide⟩
  have hs : ("frobnicate" : String) ≠ "interpolate" := by decide
  norm_num [segmentPropertiesInit, prepareData, prepStep1, prepStep2,
    findObjects, bboxOf, labelPositions, heapGet, shape2, List.range_succ,
    List.filterMap_cons, hs]

/-- Witness for C2: each failure mode of the amended claim exercised at
a concrete input. -/
theorem c2_witness :
    exOk (segmentPropertiesInit [[[1]]] 0 [[1], [2]] 1 none none none
      none "exclude" none) = false ∧
    exOk (segmentPropertiesInit [[[1]]] 0 [[1]] 0 none none none none
      "exclude" none) = false ∧
    exOk (segmentPropertiesInit [[[1]]] 0 [[1]] (-1) none none none none
      "exclude" none) = false ∧
    exOk (segmentPropertiesInit [[[1]]] 0 [[1]] 2 none none none none
      "exclude" none) = false ∧
    exOk (segmentPropertiesInit [[[1]], [[1]]] 0 [[1]] 1 none none none
      (some 1) "frobnicate" none) = false ∧
    exOk (segmentPropertiesInit [[[1]], [[1]]] 0 [[1]] 1 none (some 1)
      (some (.arr [[-1]])) none "exclude" none) = false ∧
    exOk (segmentPropertiesInit [[[1]], [[1]]] 0 [[1]] 1 none (some 1)
      (some (.scalar (-2))) none "exclude" none) = false := by
  refine ⟨?_, ?_, ?_, ?_, ?_, ?_, ?_⟩
  · exact (c2_failure_modes [[[1]]] 0 [[1], [2]] 1 none none none none
      "exclude" none).1 (by norm_num [shape2, heapGet])
  · exact (c2_failure_modes [[[1]]] 0 [[1]] 0 none none none none
      "exclude" none).2.1 rfl
  · exact (c2_failure_modes [[[1]]] 0 [[1]] (-1) none none none none
      "exclude" none).2.2.1 (by norm_num)
  · exact (c2_failure_modes [[[1]]] 0 [[1]] 2 none none none none
      "exclude" none).2.2.2.1 (by norm_num) rfl (by decide)
  · exact (c2_failure_modes [[[1]], [[1]]] 0 [[1]] 1 none none none
      (some 1) "frobnicate" none).2.2.2.2.1 1 rfl (by decide) (by decide)
  · exact (c2_failure_modes [[[1]], [[1]]] 0 [[1]] 1 none (some 1)
      (some (.arr [[-1]])) none "exclude" none).2.2.2.2.2.1 1 [[-1]]
      rfl rfl (by norm_num [gridAny])
  · exact (c2_failure_modes [[[1]], [[1]]] 0 [[1]] 1 none (some 1)
      (some (.scalar (-2))) none "exclude" none).2.2.2.2.2.2 1 (-2)
      rfl rfl (by norm_num) (by norm_num [heapGet, shape2])
      (by norm_num [heapGet, shape2])

section C4Frame

/-- A fold of heap steps that each preserve the indices satisfying `P`
preserves them globally. -/
theorem foldl_heapSet_frame {α : Type} (l : List α) (step : Heap → α → Heap)
    (P : ℕ → Prop)
    (hstep : ∀ hh a r, P r → heapGet (step hh a) r = heapGet hh r) :
    ∀ (hh : Heap) (r : ℕ), P r → heapGet (l.foldl step hh) r = heapGet hh r := by
  induction l with
  | nil => intro hh r _; rfl
  | cons a l ih =>
      intro hh r hP
      rw [List.foldl_cons, ih _ r hP, hstep hh a r hP]

/-- A fold of length-preserving heap steps preserves the heap length. -/
theorem foldl_heapSet_length {α : Type} (l : List α) (step : Heap → α → Heap)
    (hstep : ∀ hh a, (step hh a).length = hh.length) :
    ∀ (hh : Heap), (l.foldl step hh).length = hh.length := by
  induction l with
  | nil => intro hh; rfl
  | cons a l ih => intro hh; rw [List.foldl_cons, ih, hstep]

theorem heapSet_length (h : Heap) (r : ℕ) (g : Grid ℚ) :
    (heapSet h r g).length = h.length := by
  simp [heapSet]

/-- `_subtract_background` only allocates: existing arrays are
unchanged, the heap grows, and the background image reference is fresh
for a scalar background and the caller's reference for a 2D one. -/
theorem subtractBackground_spec {h : Heap} {dataRef : ℕ} {b : BkgArg}
    {h' : Heap} {dref bref : ℕ}
    (hok : subtractBackground h dataRef b = .ok (h', dref, bref)) :
    (∀ r < h.length, heapGet h' r = heapGet h r) ∧
    h.length ≤ h'.length ∧
    (∀ q, b = .scalar q → h.length ≤ bref) ∧
    (∀ a, b = .arr a → bref = a) := by
  cases b with
  | scalar q =>
      simp only [subtractBackground, Except.ok.injEq, Prod.mk.injEq] at hok
      obtain ⟨rfl, rfl, rfl⟩ := hok
      refine ⟨?_, by simp, fun _ _ => le_refl _, by simp⟩
      intro r hr
      rw [heapGet_append_of_lt _ _ _ (by simpa using Nat.lt_succ_of_lt hr),
        heapGet_append_of_lt _ _ _ hr]
  | arr a =>
      simp only [subtractBackground] at hok
      split at hok
      · exact Except.noConfusion hok
      · simp only [Except.ok.injEq, Prod.mk.injEq] at hok
        obtain ⟨rfl, rfl, rfl⟩ := hok
        refine ⟨?_, by simp, by simp, fun a' ha => by cases ha; rfl⟩
        intro r hr
        exact heapGet_append_of_lt _ _ _ hr

/-- `_apply_gain` only allocates; its result reference is fresh. -/
theorem applyGain_spec {h : Heap} {dataRef varRef : ℕ} {g : GainArg}
    {h' : Heap} {vref : ℕ}
    (hok : applyGain h dataRef varRef g = .ok (h', vref)) :
    (∀ r < h.length, heapGet h' r = heapGet h r) ∧
    h.length ≤ h'.length ∧ h.length ≤ vref := by
  simp only [applyGain] at hok
  split at hok
  · exact Except.noConfusion hok
  · split at hok
    · exact Except.noConfusion hok
    · simp only [Except.ok.injEq, Prod.mk.injEq] at hok
      obtain ⟨rfl, rfl⟩ := hok
      exact ⟨fun r hr => heapGet_append_of_lt _ _ _ hr, by simp, le_refl _⟩

/-- `prepStep1` only allocates; the background image reference is either
fresh or the caller's 2D background reference. -/
theorem prepStep1_spec {h : Heap} {dataRef : ℕ} {bkg? : Option BkgArg}
    {h₁ : Heap} {dref : ℕ} {bref? : Option ℕ}
    (hok : prepStep1 h dataRef bkg? = .ok (h₁, dref, bref?)) :
    (∀ r < h.length, heapGet h₁ r = heapGet h r) ∧
    h.length ≤ h₁.length ∧
    (∀ brv, bref? = some brv →
      h.length ≤ brv ∨ bkg? = some (.arr brv)) := by
  cases bkg? with
  | none =>
      simp only [prepStep1, Except.ok.injEq, Prod.mk.injEq] at hok
      obtain ⟨rfl, rfl, rfl⟩ := hok
      exact ⟨fun r _ => rfl, le_refl _, by simp⟩
  | some b =>
      simp only [prepStep1] at hok
      cases hsb : subtractBackground h dataRef b with
      | error e => rw [hsb] at hok; exact Except.noConfusion hok
      | ok val =>
          obtain ⟨h', dref', bref'⟩ := val
          rw [hsb] at hok
          simp only [Except.ok.injEq, Prod.mk.injEq] at hok
          obtain ⟨rfl, rfl, rfl⟩ := hok
          obtain ⟨hframe, hlen, hscalar, harr⟩ := subtractBackground_spec hsb
          refine ⟨hframe, hlen, ?_⟩
          intro brv hbrv
          injection hbrv with hbrv
          subst hbrv
          cases b with
          | scalar q => exact Or.inl (hscalar q rfl)
          | arr a => exact Or.inr (by rw [harr a rfl])

/-- `prepStep2` only allocates; the variance reference, when present, is
fresh. -/
theorem prepStep2_spec {h : Heap} {dref : ℕ} {errorRef? : Option ℕ}
    {gain? : Option GainArg} {h₂ : Heap} {vref? : Option ℕ}
    (hok : prepStep2 h dref errorRef? gain? = .ok (h₂, vref?)) :
    (∀ r < h.length, heapGet h₂ r = heapGet h r) ∧
    h.length ≤ h₂.length ∧
    (∀ v, vref? = some v → h.length ≤ v) := by
  cases errorRef? with
  | none =>
      simp only [prepStep2, Except.ok.injEq, Prod.mk.injEq] at hok
      obtain ⟨rfl, rfl⟩ := hok
      exact ⟨fun r _ => rfl, le_refl _, by simp⟩
  | some er =>
      simp only [prepStep2] at hok
      split at hok
      · exact Except.noConfusion hok
      · cases gain? with
        | none =>
            simp only [Except.ok.injEq, Prod.mk.injEq] at hok
            obtain ⟨rfl, rfl⟩ := hok
            refine ⟨fun r hr => heapGet_append_of_lt _ _ _ hr, by simp, ?_⟩
            intro v hv
            injection hv with hv
            omega
        | some g =>
            dsimp only at hok
            cases hag : applyGain
                (h ++ [gridZip (fun a b => a * b) (heapGet h er)
                  (heapGet h er)]) dref h.length g with
            | error e => rw [hag] at hok; exact Except.noConfusion hok
            | ok val =>
                obtain ⟨h', vref'⟩ := val
                rw [hag] at hok
                simp only [Except.ok.injEq, Prod.mk.injEq] at hok
                obtain ⟨rfl, rfl⟩ := hok
                obtain ⟨hframe, hlen, hvref⟩ := applyGain_spec hag
                refine ⟨?_, ?_, ?_⟩
                · intro r hr
                  rw [hframe r (by simpa using Nat.lt_succ_of_lt hr),
                    heapGet_append_of_lt _ _ _ hr]
                · simp at hlen ⊢
                  omega
                · intro v hv
                  injection hv with hv
                  subst hv
                  simp at hvref
                  omega

end C4Frame


theorem foldl_heapSet_fixed_frame {α : Type} (l : List α) (t : ℕ)
    (f : Heap → α → Grid ℚ) (hh : Heap) (r : ℕ) (hne : r ≠ t) :
    heapGet (l.foldl (fun hh a => heapSet hh t (f hh a)) hh) r =
      heapGet hh r :=
  foldl_heapSet_frame l _ (fun r => r ≠ t)
    (fun _ _ _ hr => heapGet_set_ne _ _ _ _ hr) hh r hne

theorem foldl_heapSet_fixed_length {α : Type} (l : List α) (t : ℕ)
    (f : Heap → α → Grid ℚ) (hh : Heap) :
    (l.foldl (fun hh a => heapSet hh t (f hh a)) hh).length = hh.length :=
  foldl_heapSet_length l _ (fun _ _ => heapSet_length _ _ _) hh

theorem heapGet_maskWriteZero_ne (idx : List (ℕ × ℕ)) (t? : Option ℕ)
    (hh : Heap) (r : ℕ) (ho : ∀ t, t? = some t → r ≠ t) :
    heapGet (maskWriteZero idx t? hh) r = heapGet hh r := by
  cases t? with
  | none => rfl
  | some t => exact foldl_heapSet_fixed_frame _ _ _ hh r (ho t rfl)

theorem maskWriteZero_length (idx : List (ℕ × ℕ)) (t? : Option ℕ)
    (hh : Heap) : (maskWriteZero idx t? hh).length = hh.length := by
  cases t? with
  | none => rfl
  | some t => exact foldl_heapSet_fixed_length _ _ _ hh

theorem heapGet_maskWriteMean_ne (mask : Grid ℚ) (shape : ℕ × ℕ)
    (rc : ℕ × ℕ) (t? : Option ℕ) (hh : Heap) (r : ℕ)
    (ho : ∀ t, t? = some t → r ≠ t) :
    heapGet (maskWriteMean mask shape rc t? hh) r = heapGet hh r := by
  cases t? with
  | none => rfl
  | some t => exact heapGet_set_ne _ _ _ _ (ho t rfl)

theorem maskWriteMean_length (mask : Grid ℚ) (shape : ℕ × ℕ)
    (rc : ℕ × ℕ) (t? : Option ℕ) (hh : Heap) :
    (maskWriteMean mask shape rc t? hh).length = hh.length := by
  cases t? with
  | none => rfl
  | some t => exact heapSet_length _ _ _

/-- `_apply_mask` writes only through the fresh data copy, the supplied
variance reference and the supplied background reference; every other
existing array is unchanged, and the heap only grows. -/
theorem applyMask_spec {h : Heap} {dataRef maskRef : ℕ} {method : String}
    {varRef? bkgRef? : Option ℕ} {h' : Heap} {dref' : ℕ}
    (hok : applyMask h dataRef maskRef method varRef? bkgRef? =
      .ok (h', dref')) :
    (∀ r < h.length, (∀ vr, varRef? = some vr → r ≠ vr) →
      (∀ br, bkgRef? = some br → r ≠ br) →
      heapGet h' r = heapGet h r) ∧
    h.length ≤ h'.length := by
  simp only [applyMask] at hok
  split at hok
  · exact Except.noConfusion hok
  · split at hok
    · simp only [Except.ok.injEq, Prod.mk.injEq] at hok
      obtain ⟨rfl, rfl⟩ := hok
      constructor
      · intro r hr hvr hbr
        rw [heapGet_maskWriteZero_ne _ _ _ _ hvr,
          heapGet_maskWriteZero_ne _ _ _ _ hbr,
          foldl_heapSet_fixed_frame _ _ _ _ r (by omega),
          heapGet_append_of_lt _ _ _ hr]
      · rw [maskWriteZero_length, maskWriteZero_length,
          foldl_heapSet_fixed_length]
        simp
    · split at hok
      · simp only [Except.ok.injEq, Prod.mk.injEq] at hok
        obtain ⟨rfl, rfl⟩ := hok
        have hstep : ∀ (hh : Heap) (rc : ℕ × ℕ) (r : ℕ),
            (r ≠ h.length ∧ (∀ vr, varRef? = some vr → r ≠ vr) ∧
              (∀ br, bkgRef? = some br → r ≠ br)) →
            heapGet ((fun (hh : Heap) (rc : ℕ × ℕ) =>
              maskWriteMean (heapGet h maskRef)
                (shape2 (heapGet h dataRef)) rc varRef?
                (maskWriteMean (heapGet h maskRef)
                  (shape2 (heapGet h dataRef)) rc bkgRef?
                  (heapSet hh h.length
                    (gridSet (heapGet hh h.length) rc.1 rc.2
                      (windowMean (heapGet hh h.length)
                        (heapGet h maskRef)
                        (shape2 (heapGet h dataRef)) rc.1 rc.2)))))
              hh rc) r = heapGet hh r := by
          intro hh rc r hP
          obtain ⟨hd, hv, hb⟩ := hP
          dsimp only
          rw [heapGet_maskWriteMean_ne _ _ _ _ _ _ hv,
            heapGet_maskWriteMean_ne _ _ _ _ _ _ hb,
            heapGet_set_ne _ _ _ _ hd]
        have hlen : ∀ (hh : Heap) (rc : ℕ × ℕ),
            ((fun (hh : Heap) (rc : ℕ × ℕ) =>
              maskWriteMean (heapGet h maskRef)
                (shape2 (heapGet h dataRef)) rc varRef?
                (maskWriteMean (heapGet h maskRef)
                  (shape2 (heapGet h dataRef)) rc bkgRef?
                  (heapSet hh h.length
                    (gridSet (heapGet hh h.length) rc.1 rc.2
                      (windowMean (heapGet hh h.length)
                        (heapGet h maskRef)
                        (shape2 (heapGet h dataRef)) rc.1 rc.2)))))
              hh rc).length = hh.length := by
          intro hh rc
          dsimp only
          rw [maskWriteMean_length, maskWriteMean_length, heapSet_length]
        constructor
        · intro r hr hvr hbr
          rw [foldl_heapSet_frame _ _ _ hstep _ r ⟨by omega, hvr, hbr⟩,
            heapGet_append_of_lt _ _ _ hr]
        · rw [foldl_heapSet_length _ _ hlen]
          simp
      · exact Except.noConfusion hok

/-- `_prepare_data` leaves every pre-existing array unchanged except an
array passed as the 2D `background` argument (and, when no mask is
given, unconditionally leaves every pre-existing array unchanged); the
heap only grows. -/
theorem prepareData_spec {h : Heap} {dataRef : ℕ} {errorRef? : Option ℕ}
    {gain? : Option GainArg} {maskRef? : Option ℕ} {method : String}
    {bkg? : Option BkgArg} {h' : Heap} {dref' : ℕ} {vref? bref? : Option ℕ}
    (hok : prepareData h dataRef errorRef? gain? maskRef? method bkg? =
      .ok (h', dref', vref?, bref?)) :
    (∀ r < h.length, (∀ br, bkg? = some (.arr br) → r ≠ br) →
      heapGet h' r = heapGet h r) ∧
    h.length ≤ h'.length ∧
    (maskRef? = none → ∀ r < h.length, heapGet h' r = heapGet h r) := by
  simp only [prepareData] at hok
  cases h1 : prepStep1 h dataRef bkg? with
  | error e => rw [h1] at hok; exact Except.noConfusion hok
  | ok val =>
    obtain ⟨h₁, dref₁, bref₁?⟩ := val
    rw [h1] at hok
    dsimp only at hok
    obtain ⟨hf1, hl1, hb1⟩ := prepStep1_spec h1
    cases h2 : prepStep2 h₁ dref₁ errorRef? gain? with
    | error e => rw [h2] at hok; exact Except.noConfusion hok
    | ok val =>
      obtain ⟨h₂, vref₂?⟩ := val
      rw [h2] at hok
      dsimp only at hok
      obtain ⟨hf2, hl2, hv2⟩ := prepStep2_spec h2
      cases maskRef? with
      | none =>
          simp only [Except.ok.injEq, Prod.mk.injEq] at hok
          obtain ⟨rfl, rfl, rfl, rfl⟩ := hok
          have hfr : ∀ r < h.length, heapGet h₂ r = heapGet h r := by
            intro r hr
            rw [hf2 r (lt_of_lt_of_le hr hl1), hf1 r hr]
          exact ⟨fun r hr _ => hfr r hr, le_trans hl1 hl2,
            fun _ => hfr⟩
      | some mr =>
          dsimp only at hok
          cases h3 : applyMask h₂ dref₁ mr method vref₂? bref₁? with
          | error e => rw [h3] at hok; exact Except.noConfusion hok
          | ok val =>
            obtain ⟨h₃, dref₃⟩ := val
            rw [h3] at hok
            simp only [Except.ok.injEq, Prod.mk.injEq] at hok
            obtain ⟨rfl, rfl, rfl, rfl⟩ := hok
            obtain ⟨hf3, hl3⟩ := applyMask_spec h3
            refine ⟨?_, le_trans hl1 (le_trans hl2 hl3),
              fun hmn => Option.noConfusion hmn⟩
            intro r hr hbr
            have hr1 : r < h₁.length := lt_of_lt_of_le hr hl1
            have hr2 : r < h₂.length := lt_of_lt_of_le hr1 hl2
            rw [hf3 r hr2 ?_ ?_, hf2 r hr1, hf1 r hr]
            · intro vr hvr
              have := hv2 vr hvr
              omega
            · intro br hbrv
              rcases hb1 br hbrv with hfresh | harr
              · omega
              · exact hbr br harr

/-- C4: constructing `SegmentProperties` leaves every caller-supplied
array unchanged — data, error, mask — *except* an array passed as the 2D
`background` argument: any pre-existing heap slot other than the 2D
background reference holds the same array afterwards, for every
`mask_method`.  (The 2D background itself is written through by
`_apply_mask`; see the counterexample.) -/
theorem c4_inputs_preserved {h : Heap} {dataRef : ℕ} {seg : Grid ℤ}
    {label : ℤ} {labelSlice? : Option SliceBox} {errorRef? : Option ℕ}
    {gain? : Option GainArg} {maskRef? : Option ℕ} {method : String}
    {bkg? : Option BkgArg} {h' : Heap} {props : SegProps}
    (hok : segmentPropertiesInit h dataRef seg label labelSlice? errorRef?
      gain? maskRef? method bkg? = .ok (h', props)) :
    ∀ r < h.length, (∀ br, bkg? = some (.arr br) → r ≠ br) →
      heapGet h' r = heapGet h r := by
  simp only [segmentPropertiesInit] at hok
  split at hok
  · exact Except.noConfusion hok
  · split at hok
    · exact Except.noConfusion hok
    · split at hok
      · exact Except.noConfusion hok
      · cases hpd : prepareData h dataRef errorRef? gain? maskRef? method
            bkg? with
        | error e => rw [hpd] at hok; exact Except.noConfusion hok
        | ok val =>
          obtain ⟨h₂, imageRef, vref?, bref?⟩ := val
          rw [hpd] at hok
          dsimp only at hok
          obtain ⟨hframe, hlen, -⟩ := prepareData_spec hpd
          split at hok
          all_goals try exact Except.noConfusion hok
          all_goals
            simp only [Except.ok.injEq, Prod.mk.injEq] at hok
          all_goals obtain ⟨hh', -⟩ := hok
          all_goals intro r hr hbr
          all_goals rw [← hh']
          all_goals by_cases hm : method = "interpolate"
          all_goals try
            (rw [if_pos hm]
             dsimp only
             rw [heapGet_append_of_lt _ _ _ (lt_of_lt_of_le hr hlen),
               hframe r hr hbr])
          all_goals
            (rw [if_neg hm]
             dsimp only
             exact hframe r hr hbr)

/-- Counterexample to C4's universal reading: with `mask_method =
'exclude'`, a mask selecting pixel (0,0) and a caller-supplied 2D
background array `[[2]]` (heap slot 2), construction succeeds but the
caller's background array is mutated in place to `[[0]]`. -/
theorem c4_counterexample :
    segmentPropertiesInit [[[5]], [[1]], [[2]]] 0 [[1]] 1
        (some ((0, 1), (0, 1))) none none (some 1) "exclude"
        (some (.arr 2)) =
      .ok ([[[5]], [[1]], [[0]], [[3]], [[0]]],
        { label := 1, sliceBox := ((0, 1), (0, 1)), imageRef := 4,
          varRef := none, bkgRef := some 2, maskRef := some 1 }) ∧
    heapGet [[[5]], [[1]], [[0]], [[3]], [[0]]] 2 ≠
      heapGet [[[5]], [[1]], [[2]]] 2 := by
  constructor
  · have hs : ("exclude" : String) ≠ "interpolate" := by decide
    norm_num [segmentPropertiesInit, prepareData, prepStep1, prepStep2,
      subtractBackground, applyMask, maskWriteZero, heapGet, heapSet,
      shape2, gridZip, gridSet, constGrid, nonzeroIdx, List.range_succ,
      List.filterMap_cons, hs]
  · norm_num [heapGet]

/-- Witness for C4 at the counterexample's input: the data array (slot
0) and the mask array (slot 1) are unchanged by the construction. -/
theorem c4_witness :
    (0 : ℕ) < 3 ∧ (1 : ℕ) < 3 ∧
    heapGet [[[5]], [[1]], [[0]], [[3]], [[0]]] 0 =
      heapGet [[[5]], [[1]], [[2]]] 0 ∧
    heapGet [[[5]], [[1]], [[0]], [[3]], [[0]]] 1 =
      heapGet [[[5]], [[1]], [[2]]] 1 := by
  have hok : segmentPropertiesInit [[[5]], [[1]], [[2]]] 0 [[1]] 1
      (some ((0, 1), (0, 1))) none none (some 1) "exclude"
      (some (.arr 2)) =
      .ok ([[[5]], [[1]], [[0]], [[3]], [[0]]],
        { label := 1, sliceBox := ((0, 1), (0, 1)), imageRef := 4,
          varRef := none, bkgRef := some 2, maskRef := some 1 }) := by
    have hs : ("exclude" : String) ≠ "interpolate" := by decide
    norm_num [segmentPropertiesInit, prepareData, prepStep1, prepStep2,
      subtractBackground, applyMask, maskWriteZero, heapGet, heapSet,
      shape2, gridZip, gridSet, constGrid, nonzeroIdx, List.range_succ,
      List.filterMap_cons, hs]
  refine ⟨by decide, by decide, ?_, ?_⟩
  · exact c4_inputs_preserved hok 0 (by decide)
      (fun br hbr => by simp at hbr; omega)
  · exact c4_inputs_preserved hok 1 (by decide)
      (fun br hbr => by simp at hbr; omega)

/-- `skimage.measure.moments(image, 3)` entry `m[p, q]` as used by
`SegmentProperties.moments` (line 228) and `local_centroid` (lines
256-259, where `ycentroid = m[0, 1] / m[0, 0]` and
`xcentroid = m[1, 0] / m[0, 0]`): the raw spatial moment
`sum over (r, c) of I[r, c] * c^p * r^q`. -/
def rawMoment (img : Grid ℚ) (p q : ℕ) : ℚ :=
  (((List.range img.length).map (fun r =>
    ((List.range ((img.getD r []).length)).map (fun c =>
      (img.getD r []).getD c 0 * (c : ℚ) ^ p * (r : ℚ) ^ q)).sum)).sum)

/-- `local_centroid` (lines 255-259): `(ycentroid, xcentroid)`. -/
def localCentroid (img : Grid ℚ) : ℚ × ℚ :=
  (rawMoment img 0 1 / rawMoment img 0 0,
   rawMoment img 1 0 / rawMoment img 0 0)

/-- `skimage.measure.moments_central(image, ycentroid, xcentroid, 3)`
entry `mu[p, q]` as used by `moments_central` (lines 236-239): the
translation-invariant central moment about the local centroid. -/
def centralMoment (img : Grid ℚ) (p q : ℕ) : ℚ :=
  let yc := (localCentroid img).1
  let xc := (localCentroid img).2
  (((List.range img.length).map (fun r =>
    ((List.range ((img.getD r []).length)).map (fun c =>
      (img.getD r []).getD c 0 * ((c : ℚ) - xc) ^ p *
        ((r : ℚ) - yc) ^ q)).sum)).sum)

/-- `covariance` (lines 429-431): the entries `(a, b, c)` of the
symmetric matrix `[[m[2,0], m[1,1]], [m[1,1], m[0,2]]]` with
`m = mu / mu[0, 0]`. -/
def covarianceMatrix (img : Grid ℚ) : ℚ × ℚ × ℚ :=
  let mu00 := centralMoment img 0 0
  (centralMoment img 2 0 / mu00, centralMoment img 1 1 / mu00,
   centralMoment img 0 2 / mu00)

/-- `covariance_eigvals` (lines 439-440):
`np.linalg.eigvals` of the symmetric 2x2 matrix `[[a, b], [b, c]]` gives
the two roots `(a + c)/2 +- sqrt(((a - c)/2)^2 + b^2)` of the
characteristic polynomial, and the code returns
`(np.max(eigvals), np.min(eigvals))`. -/
noncomputable def covarianceEigvals (img : Grid ℚ) : ℝ × ℝ :=
  let a : ℝ := (covarianceMatrix img).1
  let b : ℝ := (covarianceMatrix img).2.1
  let c : ℝ := (covarianceMatrix img).2.2
  let e1 := (a + c) / 2 + Real.sqrt (((a - c) / 2) ^ 2 + b ^ 2)
  let e2 := (a + c) / 2 - Real.sqrt (((a - c) / 2) ^ 2 + b ^ 2)
  (max e1 e2, min e1 e2)

/-- `eccentricity` (lines 476-479): `l1, l2 = covariance_eigvals`;
`0` when `l1 == 0`, else `sqrt(1 - l2/l1)`. -/
noncomputable def eccentricity (img : Grid ℚ) : ℝ :=
  let l1 := (covarianceEigvals img).1
  let l2 := (covarianceEigvals img).2
  if l1 = 0 then 0 else Real.sqrt (1 - l2 / l1)

/-- C9: `covariance_eigvals` always returns the two covariance
eigenvalues in descending order; and whenever the smaller eigenvalue is
nonnegative the eccentricity lies in the closed interval `[0, 1]` — not
the half-open `[0, 1)`: the value `1` is attained for degenerate
(collinear) segments whose smaller eigenvalue is `0`. -/
theorem c9_eigvals_descending_ecc_bounded (img : Grid ℚ) :
    (covarianceEigvals img).2 ≤ (covarianceEigvals img).1 ∧
    (0 ≤ (covarianceEigvals img).2 →
      0 ≤ eccentricity img ∧ eccentricity img ≤ 1) := by
  constructor
  · unfold covarianceEigvals
    dsimp only
    exact min_le_max
  · intro h2
    unfold eccentricity
    dsimp only
    split_ifs with h1
    · norm_num
    · have hl1 : 0 < (covarianceEigvals img).1 :=
        lt_of_le_of_ne (le_trans h2 min_le_max) (Ne.symm h1)
      refine ⟨Real.sqrt_nonneg _, Real.sqrt_le_one.mpr ?_⟩
      have : 0 ≤ (covarianceEigvals img).2 / (covarianceEigvals img).1 :=
        div_nonneg h2 hl1.le
      linarith

/-- Counterexample to C9's range `[0, 1)`: a two-pixel horizontal
segment has eigenvalues `(1/4, 0)`, so its eccentricity is exactly `1`. -/
theorem c9_counterexample :
    eccentricity [[1, 1]] = 1 ∧ ¬ eccentricity [[1, 1]] < 1 := by
  have hcov : covarianceMatrix [[1, 1]] = (1/4, 0, 0) := by
    norm_num [covarianceMatrix, centralMoment, localCentroid, rawMoment,
      List.range_succ]
  have hs : Real.sqrt ((1 : ℝ)/64) = 1/8 := by
    rw [show ((1 : ℝ)/64) = (1/8)^2 by norm_num, Real.sqrt_sq]
    norm_num
  have heig : covarianceEigvals [[1, 1]] = (1/4, 0) := by
    norm_num [covarianceEigvals, hcov, hs]
  have he : eccentricity [[1, 1]] = 1 := by
    norm_num [eccentricity, heig, Real.sqrt_one]
  exact ⟨he, by rw [he]; exact lt_irrefl 1⟩

/-- Witness for C9 at a single-pixel segment: both eigenvalues are `0`
and the eccentricity is `0`, inside `[0, 1]`. -/
theorem c9_witness :
    (0 : ℝ) ≤ (covarianceEigvals [[1]]).2 ∧
    0 ≤ eccentricity [[1]] ∧ eccentricity [[1]] ≤ 1 := by
  have h2 : (0 : ℝ) ≤ (covarianceEigvals [[1]]).2 := by
    norm_num [covarianceEigvals, covarianceMatrix, centralMoment,
      localCentroid, rawMoment, List.range_succ, Real.sqrt_zero]
  exact ⟨h2, (c9_eigvals_descending_ecc_bounded [[1]]).2 h2⟩
